import Mathlib

/-!
# SN76489 sound-chip driver (`sn76489.c`)

A shallow embedding of the driver and the properties of its register-write
protocol.

Modelling conventions.

* A pointer to a memory-mapped register is its address, a natural number;
  address `0` is the null pointer.  The handle pointer is an `Option`:
  `none` is the null pointer.
* Registers are bytes.  `World.mem` holds what was last written to every
  register (the output latch); a read-modify-write (`&=`, `|=`) reads that
  latch.
* The control-read port is an input: what a sample of it returns is chosen by
  the environment, a function of everything that has happened on the bus so
  far (`Pins`).
* Everything visible from outside the CPU is recorded, in order, in
  `World.trace`: masking and unmasking of interrupts, every sample of the
  control-read port and every register write.
* The busy-wait loops take a bound on the number of samples; `Run.spin` is a
  loop that is still spinning when the bound is reached.
* C `int` is the 16-bit `int` of the XC8 compiler (the file includes `xc.h`);
  an `int` value is represented by its bit pattern, a natural number below
  `2 ^ 16`.
-/

namespace SN76489

/-! ## The `#define`s -/

abbrev VOICE1_FREQ : Nat := 0
abbrev VOICE2_FREQ : Nat := 2
abbrev VOICE3_FREQ : Nat := 1
abbrev VOICE1_ATTN : Nat := 4
abbrev VOICE2_ATTN : Nat := 6
abbrev VOICE3_ATTN : Nat := 5
abbrev NOISE_CTRL : Nat := 3
abbrev NOISE_ATTN : Nat := 7
abbrev FIRST_BYTE : Nat := 0x01
abbrev SECOND_BYTE : Nat := 0x00
abbrev REG_SHIFT : Nat := 4

/-! ## Machine arithmetic -/

/-- Width of the C type `int` (XC8). -/
abbrev INT_BITS : Nat := 16

/-- Conversion to `uint8_t`. -/
def u8 (x : Nat) : Nat := x % 2 ^ 8

/-- Conversion to `uint16_t`. -/
def u16 (x : Nat) : Nat := x % 2 ^ 16

/-- Conversion to `uint32_t`. -/
def u32 (x : Nat) : Nat := x % 2 ^ 32

/-- The bit pattern of `1 << n` in an `int`. -/
def bit1 (n : Nat) : Nat := (1 <<< n) % 2 ^ INT_BITS

/-- The bit pattern of `~x` in an `int`. -/
def bnot (x : Nat) : Nat := 2 ^ INT_BITS - 1 - x % 2 ^ INT_BITS

/-! ## Data model -/

/-- Modelled from the spec: the device handle `struct s_sn76489`, declared in
`sn76489.h`; it holds the three pin indices and the three port pointers that
`sn76489.c` reads and writes. -/
structure s_sn76489 where
  nWE : Nat
  nCE : Nat
  ready : Nat
  p_dataPortW : Nat
  p_ctrlPortR : Nat
  p_ctrlPortW : Nat
deriving DecidableEq, Repr

/-- What can be observed from outside the CPU. -/
inductive Event where
  | di : Event
  | ei : Event
  | rd (addr val : Nat) : Event
  | wr (addr val : Nat) : Event
deriving DecidableEq, Repr

/-- The machine: register latches, the global interrupt enable bit and the
history of observable events (oldest first). -/
structure World where
  mem : Nat → Nat
  gie : Bool
  trace : List Event

/-- The environment: the byte an input port presents, given the history of
events so far and the address sampled. -/
abbrev Pins : Type := List Event → Nat → Nat

/-- Outcome of code that contains a busy-wait: it returned (`done`), or it is
still polling when the sample bound is reached (`spin`). -/
inductive Run where
  | done (w : World) : Run
  | spin (w : World) : Run

/-- Sequencing: what follows a call runs only if the call returned. -/
def Run.bind (r : Run) (k : World → Run) : Run :=
  match r with
  | Run.done w => k w
  | Run.spin w => Run.spin w

/-- The state a run ended in. -/
def Run.world : Run → World
  | Run.done w => w
  | Run.spin w => w

/-- Whether the run returned. -/
def Run.returned : Run → Bool
  | Run.done _ => true
  | Run.spin _ => false

/-! ## Register access -/

/-- Read the latch of the register at address `a`. -/
def load (w : World) (a : Nat) : Nat := u8 (w.mem a)

/-- Write the byte `v` to the register at address `a`: `*a = v`. -/
def store (w : World) (a v : Nat) : World :=
  { w with
    mem := fun x => if x = a then u8 v else w.mem x
    trace := w.trace ++ [Event.wr a (u8 v)] }

/-- Modelled from the spec: the platform primitive `di()` of `xc.h`, "disable
interrupts (enter critical section)": it clears the global interrupt enable. -/
def di (w : World) : World :=
  { w with gie := false, trace := w.trace ++ [Event.di] }

/-- Modelled from the spec: the platform primitive `ei()` of `xc.h`,
"re-enable interrupts (exit critical section)": it sets the global interrupt
enable. -/
def ei (w : World) : World :=
  { w with gie := true, trace := w.trace ++ [Event.ei] }

/-! ## The driver -/

/-- Function `initSN76489port` (lines 57 to 82): set the port directions and
record the pins. -/
def initSN76489port (p_sn76489 : Option s_sn76489) (p_dataTRIS p_ctrlTRIS : Nat)
    (nWE nCE ready : Nat) (w : World) : Option s_sn76489 × World :=
  let nWE := u8 nWE
  let nCE := u8 nCE
  let ready := u8 ready
  if p_dataTRIS = 0 then (p_sn76489, w)
  else if p_ctrlTRIS = 0 then (p_sn76489, w)
  else
    match p_sn76489 with
    | none => (none, w)
    | some s =>
      let w := store w p_dataTRIS 0
      let w := store w p_ctrlTRIS (load w p_ctrlTRIS &&& bnot (bit1 nWE ||| bit1 nCE))
      let w := store w p_ctrlTRIS (load w p_ctrlTRIS ||| bit1 ready)
      (some { s with nWE := nWE, nCE := nCE, ready := ready }, w)

/-- The loop `while(!((*(p->p_ctrlPortR) >> p->ready) & 0x01));` with at most
`fuel` samples of the control-read port. -/
def pollReady (env : Pins) (p : s_sn76489) : Nat → World → Run
  | 0, w => Run.spin w
  | fuel + 1, w =>
    let v := u8 (env w.trace p.p_ctrlPortR)
    let w := { w with trace := w.trace ++ [Event.rd p.p_ctrlPortR v] }
    if (v >>> p.ready) &&& 0x01 = 0 then pollReady env p fuel w else Run.done w

/-- Function `sendData` (lines 178 to 197): one byte transfer to the chip. -/
def sendData (env : Pins) (fuel : Nat) (p : s_sn76489) (data : Nat) (w : World) : Run :=
  let data := u8 data
  let w := di w
  (pollReady env p fuel w).bind fun w =>
    let w := store w p.p_ctrlPortW (load w p.p_ctrlPortW &&& bnot (bit1 p.nCE))
    let w := store w p.p_dataPortW data
    let w := store w p.p_ctrlPortW (load w p.p_ctrlPortW &&& bnot (bit1 p.nWE))
    (pollReady env p fuel w).bind fun w =>
      let w := store w p.p_ctrlPortW (load w p.p_ctrlPortW ||| bit1 p.nCE)
      let w := store w p.p_ctrlPortW (load w p.p_ctrlPortW ||| bit1 p.nWE)
      Run.done (ei w)

/-- Function `initSN76489` (lines 85 to 116): bind the ports, idle the bus and
"mute all". -/
def initSN76489 (env : Pins) (fuel : Nat) (p_sn76489 : Option s_sn76489)
    (p_dataPortW p_ctrlPortR p_ctrlPortW : Nat) (w : World) : Option s_sn76489 × Run :=
  if p_dataPortW = 0 then (p_sn76489, Run.done w)
  else if p_ctrlPortR = 0 then (p_sn76489, Run.done w)
  else if p_ctrlPortW = 0 then (p_sn76489, Run.done w)
  else
    match p_sn76489 with
    | none => (none, Run.done w)
    | some s =>
      let s : s_sn76489 :=
        { s with p_dataPortW := p_dataPortW, p_ctrlPortR := p_ctrlPortR,
                 p_ctrlPortW := p_ctrlPortW }
      let w := store w s.p_dataPortW 0
      let w := store w s.p_ctrlPortW (bnot 0)
      (some s,
        (((sendData env fuel s ((VOICE1_ATTN <<< REG_SHIFT) ||| 0xF0 ||| FIRST_BYTE) w).bind
          (sendData env fuel s ((VOICE2_ATTN <<< REG_SHIFT) ||| 0xF0 ||| FIRST_BYTE))).bind
          (sendData env fuel s ((VOICE3_ATTN <<< REG_SHIFT) ||| 0xF0 ||| FIRST_BYTE))).bind
          (sendData env fuel s ((NOISE_ATTN <<< REG_SHIFT) ||| 0xF0 ||| FIRST_BYTE)))

/-- Function `getSN76489_FreqDiv` (lines 119 to 122).  The shift
`5 << voiceFreq` is computed in `int`; the result
is `none` where C leaves it undefined (the shift does not fit the `int`). -/
def getSN76489_FreqDiv (refClk voiceFreq : Nat) : Option Nat :=
  let refClk := u32 refClk
  let voiceFreq := u32 voiceFreq
  if voiceFreq < INT_BITS ∧ 5 <<< voiceFreq < 2 ^ (INT_BITS - 1) then
    some (u16 ((refClk / (5 <<< voiceFreq)) &&& 0x03FF))
  else none

/-- Function `setSN76489voice1_freq` (lines 127 to 131). -/
def setSN76489voice1_freq (env : Pins) (fuel : Nat) (p : s_sn76489) (freqDiv : Nat)
    (w : World) : Run :=
  let freqDiv := u16 freqDiv
  (sendData env fuel p (((freqDiv &&& 0x03C0) >>> 2) ||| (VOICE1_FREQ <<< 1) ||| FIRST_BYTE) w).bind
    (sendData env fuel p (((freqDiv &&& 0x001F) <<< 2) ||| SECOND_BYTE))

/-- Function `setSN76489voice2_freq` (lines 134 to 138). -/
def setSN76489voice2_freq (env : Pins) (fuel : Nat) (p : s_sn76489) (freqDiv : Nat)
    (w : World) : Run :=
  let freqDiv := u16 freqDiv
  (sendData env fuel p (((freqDiv &&& 0x03C0) >>> 2) ||| (VOICE2_FREQ <<< 1) ||| FIRST_BYTE) w).bind
    (sendData env fuel p (((freqDiv &&& 0x001F) <<< 2) ||| SECOND_BYTE))

/-- Function `setSN76489voice3_freq` (lines 141 to 145). -/
def setSN76489voice3_freq (env : Pins) (fuel : Nat) (p : s_sn76489) (freqDiv : Nat)
    (w : World) : Run :=
  let freqDiv := u16 freqDiv
  (sendData env fuel p (((freqDiv &&& 0x03C0) >>> 2) ||| (VOICE3_FREQ <<< 1) ||| FIRST_BYTE) w).bind
    (sendData env fuel p (((freqDiv &&& 0x001F) <<< 2) ||| SECOND_BYTE))

/-- Function `setSN76489voice1_attn` (lines 148 to 151). -/
def setSN76489voice1_attn (env : Pins) (fuel : Nat) (p : s_sn76489) (attenuate : Nat)
    (w : World) : Run :=
  let attenuate := u8 attenuate
  sendData env fuel p ((attenuate <<< 4) ||| (VOICE1_ATTN <<< 1) ||| FIRST_BYTE) w

/-- Function `setSN76489voice2_attn` (lines 154 to 157). -/
def setSN76489voice2_attn (env : Pins) (fuel : Nat) (p : s_sn76489) (attenuate : Nat)
    (w : World) : Run :=
  let attenuate := u8 attenuate
  sendData env fuel p ((attenuate <<< 4) ||| (VOICE2_ATTN <<< 1) ||| FIRST_BYTE) w

/-- Function `setSN76489voice3_attn` (lines 160 to 163). -/
def setSN76489voice3_attn (env : Pins) (fuel : Nat) (p : s_sn76489) (attenuate : Nat)
    (w : World) : Run :=
  let attenuate := u8 attenuate
  sendData env fuel p ((attenuate <<< 4) ||| (VOICE3_ATTN <<< 1) ||| FIRST_BYTE) w

/-- Function `setSN76489noise_attn` (lines 166 to 169). -/
def setSN76489noise_attn (env : Pins) (fuel : Nat) (p : s_sn76489) (attenuate : Nat)
    (w : World) : Run :=
  let attenuate := u8 attenuate
  sendData env fuel p ((attenuate <<< 4) ||| (NOISE_ATTN <<< 1) ||| FIRST_BYTE) w

/-- Function `setSN76489noiseCtrl` (lines 172 to 175). -/
def setSN76489noiseCtrl (env : Pins) (fuel : Nat) (p : s_sn76489) (type rate : Nat)
    (w : World) : Run :=
  let type := u8 type
  let rate := u8 rate
  sendData env fuel p ((rate <<< 6) ||| (type <<< 5) ||| (NOISE_CTRL <<< 1) ||| FIRST_BYTE) w

/-- Function `checkRate` (lines 200 to 212). -/
def checkRate (rate : Nat) : Nat :=
  let rate := u8 rate
  match rate with
  | 0x00 => rate
  | 0x01 => rate
  | 0x02 => rate
  | 0x03 => rate
  | _ => 0x00

/-! ## Reading a trace -/

/-- The bytes written to the register at address `a`, in order. -/
def writesTo (a : Nat) : List Event → List Nat
  | [] => []
  | Event.wr b v :: es => if b = a then v :: writesTo a es else writesTo a es
  | _ :: es => writesTo a es

/-- How many times interrupts were disabled. -/
def countDi : List Event → Nat
  | [] => 0
  | Event.di :: es => countDi es + 1
  | _ :: es => countDi es

/-- How many times interrupts were enabled. -/
def countEi : List Event → Nat
  | [] => 0
  | Event.ei :: es => countEi es + 1
  | _ :: es => countEi es

/-- Starting with the interrupt enable bit `gie`, every port access (sample or
write) in the trace happens while interrupts are disabled. -/
def accessesMasked : Bool → List Event → Bool
  | _, [] => true
  | _, Event.di :: es => accessesMasked false es
  | _, Event.ei :: es => accessesMasked true es
  | gie, Event.rd _ _ :: es => !gie && accessesMasked gie es
  | gie, Event.wr _ _ :: es => !gie && accessesMasked gie es

/-! ## Vocabulary of the properties -/

/-- The ready line reads high on every sample of the control-read port. -/
def ReadyHigh (env : Pins) (p : s_sn76489) : Prop :=
  ∀ hist : List Event, (u8 (env hist p.p_ctrlPortR)).testBit p.ready = true

/-- The ready line reads low on every sample of the control-read port. -/
def ReadyLow (env : Pins) (p : s_sn76489) : Prop :=
  ∀ hist : List Event, (u8 (env hist p.p_ctrlPortR)).testBit p.ready = false

/-- Both control lines are idle: the chip-enable bit and the write-enable bit
of the control-write port are high. -/
def Idle (p : s_sn76489) (w : World) : Prop :=
  (load w p.p_ctrlPortW).testBit p.nCE = true ∧ (load w p.p_ctrlPortW).testBit p.nWE = true

/-- The world after one sample of the control-read port. -/
def sampleCtrl (env : Pins) (p : s_sn76489) (w : World) : World :=
  { w with trace := w.trace ++ [Event.rd p.p_ctrlPortR (u8 (env w.trace p.p_ctrlPortR))] }

/-- Lines 184 to 188 of `sendData`: chip-enable low, data out, write-enable
low. -/
def assertBus (p : s_sn76489) (data : Nat) (w : World) : World :=
  let w := store w p.p_ctrlPortW (load w p.p_ctrlPortW &&& bnot (bit1 p.nCE))
  let w := store w p.p_dataPortW data
  store w p.p_ctrlPortW (load w p.p_ctrlPortW &&& bnot (bit1 p.nWE))

/-- Lines 192 to 194 of `sendData`: chip-enable high, write-enable high. -/
def releaseBus (p : s_sn76489) (w : World) : World :=
  let w := store w p.p_ctrlPortW (load w p.p_ctrlPortW ||| bit1 p.nCE)
  store w p.p_ctrlPortW (load w p.p_ctrlPortW ||| bit1 p.nWE)

/-- Whether `evs` is the event sequence of one completed transfer of the byte
`d` through the handle `p`, ready reading high at both polls. -/
def isTransfer (p : s_sn76489) (d : Nat) : List Event → Bool
  | [Event.di, Event.rd a1 v1, Event.wr a2 _, Event.wr a3 x, Event.wr a4 _,
      Event.rd a5 v2, Event.wr a6 _, Event.wr a7 _, Event.ei] =>
    decide (a1 = p.p_ctrlPortR) && v1.testBit p.ready && decide (a2 = p.p_ctrlPortW) &&
      decide (a3 = p.p_dataPortW) && decide (x = d) && decide (a4 = p.p_ctrlPortW) &&
      decide (a5 = p.p_ctrlPortR) && v2.testBit p.ready && decide (a6 = p.p_ctrlPortW) &&
      decide (a7 = p.p_ctrlPortW)
  | _ => false

/-! ## A simulated chip -/

/-- What a simulated chip sees of the bus: the control lines and the data byte
as last driven, and how often ready was sampled since the last write. -/
structure Bus where
  ctrl : Nat
  data : Option Nat
  polls : Nat
deriving DecidableEq, Repr

/-- The bus before anything was driven: all control lines high, no data. -/
def Bus.idle : Bus := { ctrl := 0xFF, data := none, polls := 0 }

/-- The simulated chip watches the writes to the control-write port and to the
data-write port of the handle, and counts the samples. -/
def Bus.step (p : s_sn76489) (b : Bus) : Event → Bus
  | Event.wr a v =>
    { ctrl := if a = p.p_ctrlPortW then v else b.ctrl
      data := if a = p.p_dataPortW then some v else b.data
      polls := 0 }
  | Event.rd _ _ => { b with polls := b.polls + 1 }
  | _ => b

/-- The bus as the history of events leaves it. -/
def busOf (p : s_sn76489) (hist : List Event) : Bus :=
  hist.foldl (Bus.step p) Bus.idle

/-- Chip-enable low, the byte `d` on the data port and write-enable low are all
on the bus, and have been for `k` samples. -/
def Bus.latched (p : s_sn76489) (d k : Nat) (b : Bus) : Bool :=
  !b.ctrl.testBit p.nCE && !b.ctrl.testBit p.nWE && decide (b.data = some d) &&
    decide (k ≤ b.polls)

/-- A simulated ready line that starts low and asserts only after chip-enable
low, the data byte `d` and write-enable low have all been observed (and `k`
samples have passed since). -/
def strictMock (p : s_sn76489) (d k : Nat) : Pins :=
  fun hist _ => if (busOf p hist).latched p d k then bit1 p.ready else 0

/-- A simulated ready line that reads high while chip-enable is high (the chip
is not selected) and, once chip-enable is low, asserts only after the data byte
`d` and write-enable low have been observed too (and `k` samples have passed
since). -/
def chipMock (p : s_sn76489) (d k : Nat) : Pins :=
  fun hist _ =>
    if (busOf p hist).ctrl.testBit p.nCE || (busOf p hist).latched p d k then bit1 p.ready
    else 0

/-- A handle for the examples: write-enable on bit 0, chip-enable on bit 1,
ready on bit 2; the ports at addresses 10, 11 and 12. -/
def demoHandle : s_sn76489 :=
  { nWE := 0, nCE := 1, ready := 2, p_dataPortW := 10, p_ctrlPortR := 11, p_ctrlPortW := 12 }

/-- A machine with every register reading `0xFF` (all control lines high),
interrupts enabled and no history. -/
def idleWorld : World := { mem := fun _ => 0xFF, gie := true, trace := [] }

/-- An environment in which every input pin reads high on every sample. -/
def readyAlways : Pins := fun _ _ => 0xFF

/-- An environment in which every input pin reads low on every sample. -/
def readyNever : Pins := fun _ _ => 0

/-- The example machine entered with interrupts already disabled. -/
def maskedWorld : World := { idleWorld with gie := false }

/-! ## Lemmas -/

theorem shiftRight_and_one_eq_zero (x n : Nat) :
    ((x >>> n) &&& 1 = 0) ↔ x.testBit n = false := by
  unfold Nat.testBit
  rw [Nat.and_comm]
  cases h : (1 &&& x >>> n) with
  | zero => simp 
  | succ k => simp

theorem pollReady_succ (env : Pins) (p : s_sn76489) (fuel : Nat) (w : World) :
    pollReady env p (fuel + 1) w =
      if (u8 (env w.trace p.p_ctrlPortR)).testBit p.ready = false
      then pollReady env p fuel (sampleCtrl env p w) else Run.done (sampleCtrl env p w) := by
  simp only [pollReady, sampleCtrl, shiftRight_and_one_eq_zero]

theorem pollReady_readyHigh (env : Pins) (p : s_sn76489) (fuel : Nat) (w : World)
    (h : ReadyHigh env p) : pollReady env p (fuel + 1) w = Run.done (sampleCtrl env p w) := by
  rw [pollReady_succ, if_neg]
  simp [h w.trace]

@[simp] theorem u8_u8 (x : Nat) : u8 (u8 x) = u8 x := by
  simp [u8]

@[simp] theorem store_trace (w : World) (a v : Nat) :
    (store w a v).trace = w.trace ++ [Event.wr a (u8 v)] := rfl

@[simp] theorem di_trace (w : World) : (di w).trace = w.trace ++ [Event.di] := rfl

@[simp] theorem ei_trace (w : World) : (ei w).trace = w.trace ++ [Event.ei] := rfl

@[simp] theorem sampleCtrl_trace (env : Pins) (p : s_sn76489) (w : World) :
    (sampleCtrl env p w).trace =
      w.trace ++ [Event.rd p.p_ctrlPortR (u8 (env w.trace p.p_ctrlPortR))] := rfl

theorem sendData_readyHigh (env : Pins) (p : s_sn76489) (fuel : Nat) (data : Nat) (w : World)
    (h : ReadyHigh env p) :
    sendData env (fuel + 1) p data w =
      Run.done (ei (releaseBus p (sampleCtrl env p
        (assertBus p (u8 data) (sampleCtrl env p (di w)))))) := by
  simp only [sendData, pollReady_readyHigh _ _ _ _ h, Run.bind, assertBus, releaseBus]

theorem sendData_isTransfer (env : Pins) (p : s_sn76489) (fuel : Nat) (data : Nat) (w : World)
    (h : ReadyHigh env p) :
    ∃ w' e, sendData env (fuel + 1) p data w = Run.done w' ∧ w'.trace = w.trace ++ e ∧
      isTransfer p (u8 data) e = true := by
  have hs := sendData_readyHigh env p fuel data w h
  have h' : ∀ hist, (u8 (env hist p.p_ctrlPortR)).testBit p.ready = true := h
  exact ⟨_, _, hs,
    by simp only [ei_trace, store_trace, sampleCtrl_trace, di_trace, assertBus, releaseBus,
        List.append_assoc]; rfl,
    by simp [isTransfer, h']⟩

theorem freq_byte1_lt (D r : Nat) (hr : r < 8) :
    (((D &&& 0x03C0) >>> 2) ||| (r <<< 1) ||| 0x01) < 2 ^ 8 := by
  have h1 : (D &&& 0x03C0) >>> 2 < 2 ^ 8 := by
    have : D &&& 0x03C0 ≤ 0x03C0 := Nat.and_le_right
    rw [Nat.shiftRight_eq_div_pow]; omega
  have h2 : r <<< 1 < 2 ^ 8 := by rw [Nat.shiftLeft_eq]; omega
  exact Nat.or_lt_two_pow (Nat.or_lt_two_pow h1 h2) (by norm_num)

theorem freq_byte2_lt (D : Nat) : (((D &&& 0x001F) <<< 2) ||| 0x00) < 2 ^ 8 := by
  have h1 : (D &&& 0x001F) <<< 2 < 2 ^ 8 := by
    have : D &&& 0x001F ≤ 0x001F := Nat.and_le_right
    rw [Nat.shiftLeft_eq]; omega
  exact Nat.or_lt_two_pow h1 (by norm_num)

theorem voice_freq_transfers (env : Pins) (p : s_sn76489) (fuel D r : Nat) (w : World)
    (h : ReadyHigh env p) (hD : D < 2 ^ 16) (hr : r < 8) :
    ∃ w' e1 e2,
      (sendData env (fuel + 1) p (((u16 D &&& 0x03C0) >>> 2) ||| (r <<< 1) ||| FIRST_BYTE) w).bind
          (sendData env (fuel + 1) p (((u16 D &&& 0x001F) <<< 2) ||| SECOND_BYTE)) = Run.done w' ∧
      w'.trace = w.trace ++ e1 ++ e2 ∧
      isTransfer p (((D &&& 0x3C0) >>> 2) ||| (r <<< 1) ||| 0x01) e1 = true ∧
      isTransfer p (((D &&& 0x01F) <<< 2) ||| 0x00) e2 = true := by
  obtain ⟨w1, e1, hs1, ht1, hi1⟩ := sendData_isTransfer env p fuel
    (((u16 D &&& 0x03C0) >>> 2) ||| (r <<< 1) ||| FIRST_BYTE) w h
  obtain ⟨w2, e2, hs2, ht2, hi2⟩ := sendData_isTransfer env p fuel
    (((u16 D &&& 0x001F) <<< 2) ||| SECOND_BYTE) w1 h
  have hu : u16 D = D := Nat.mod_eq_of_lt hD
  rw [hu] at hs1 hs2 hi1 hi2
  refine ⟨w2, e1, e2, ?_, ?_, ?_, ?_⟩
  · rw [hu, hs1]; exact hs2
  · rw [ht2, ht1]
  · rw [u8, Nat.mod_eq_of_lt (freq_byte1_lt D r hr)] at hi1; exact hi1
  · rw [u8, Nat.mod_eq_of_lt (freq_byte2_lt D)] at hi2; exact hi2

theorem testBit_u8 (x i : Nat) : (u8 x).testBit i = (decide (i < 8) && x.testBit i) := by
  unfold u8; exact Nat.testBit_mod_two_pow x 8 i

theorem testBit_bit1 (n i : Nat) : (bit1 n).testBit i = (decide (i < 16) && decide (n = i)) := by
  simp [bit1, Nat.one_shiftLeft, Nat.testBit_two_pow]

theorem testBit_bnot (x i : Nat) : (bnot x).testBit i = (decide (i < 16) && !x.testBit i) := by
  have hlt : x % 2 ^ 16 < 2 ^ 16 := Nat.mod_lt _ (by norm_num)
  have h := Nat.testBit_two_pow_sub_succ hlt i
  have he : bnot x = 2 ^ 16 - (x % 2 ^ 16 + 1) := by
    simp only [bnot, INT_BITS]; omega
  rw [he, h, Nat.testBit_mod_two_pow]
  by_cases hi : i < 16 <;> simp [hi]

theorem load_store_same (w : World) (a v : Nat) : load (store w a v) a = u8 v := by
  simp [load, store]

theorem load_store_other (w : World) (a b v : Nat) (h : b ≠ a) :
    load (store w a v) b = load w b := by
  simp [load, store, h]

theorem load_lt (w : World) (a : Nat) : load w a < 256 := by
  simp only [load, u8]; omega

theorem attn_byte_lt (L r : Nat) (hL : L ≤ 0xF) (hr : r < 8) :
    ((L <<< 4) ||| (r <<< 1) ||| 0x01) < 2 ^ 8 := by
  have h1 : L <<< 4 < 2 ^ 8 := by rw [Nat.shiftLeft_eq]; omega
  have h2 : r <<< 1 < 2 ^ 8 := by rw [Nat.shiftLeft_eq]; omega
  exact Nat.or_lt_two_pow (Nat.or_lt_two_pow h1 h2) (by norm_num)

theorem attn_transfer (env : Pins) (p : s_sn76489) (fuel L r : Nat) (w : World)
    (h : ReadyHigh env p) (hL : L ≤ 0xF) (hr : r < 8) :
    ∃ w' e,
      sendData env (fuel + 1) p ((u8 L <<< 4) ||| (r <<< 1) ||| FIRST_BYTE) w = Run.done w' ∧
      w'.trace = w.trace ++ e ∧
      isTransfer p ((L <<< 4) ||| (r <<< 1) ||| 0x01) e = true := by
  obtain ⟨w1, e1, hs1, ht1, hi1⟩ := sendData_isTransfer env p fuel
    ((u8 L <<< 4) ||| (r <<< 1) ||| FIRST_BYTE) w h
  have hu : u8 L = L := Nat.mod_eq_of_lt (by omega)
  rw [hu] at hs1 hi1
  rw [u8, Nat.mod_eq_of_lt (attn_byte_lt L r hL hr)] at hi1
  exact ⟨w1, e1, by rw [hu]; exact hs1, ht1, hi1⟩

theorem noise_byte_lt (type rate : Nat) (ht : type ≤ 1) (hr : rate ≤ 3) :
    ((rate <<< 6) ||| (type <<< 5) ||| (3 <<< 1) ||| 0x01) < 2 ^ 8 := by
  have h1 : rate <<< 6 < 2 ^ 8 := by rw [Nat.shiftLeft_eq]; omega
  have h2 : type <<< 5 < 2 ^ 8 := by rw [Nat.shiftLeft_eq]; omega
  exact Nat.or_lt_two_pow (Nat.or_lt_two_pow (Nat.or_lt_two_pow h1 h2) (by decide))
    (by norm_num)

set_option maxRecDepth 100000 in
theorem freq_pair_fields :
    ∀ D, D < 1024 → ∀ r, r < 3 →
      ((((D &&& 0x3C0) >>> 2) ||| (r <<< 1) ||| 0x01) >>> 4 = D >>> 6 ∧
       ((((D &&& 0x01F) <<< 2) ||| 0x00) >>> 2) &&& 0x1F = D &&& 0x1F ∧
       D &&& 0x3DF = ((D >>> 6) <<< 6) ||| (D &&& 0x1F)) := by
  decide

theorem voice_freq_fields (env : Pins) (p : s_sn76489) (fuel D r : Nat) (w : World)
    (h : ReadyHigh env p) (hD : D ≤ 0x3FF) (hr : r < 3) :
    ∃ w' e1 e2 b1 b2,
      (sendData env (fuel + 1) p (((u16 D &&& 0x03C0) >>> 2) ||| (r <<< 1) ||| FIRST_BYTE) w).bind
          (sendData env (fuel + 1) p (((u16 D &&& 0x001F) <<< 2) ||| SECOND_BYTE)) = Run.done w' ∧
      w'.trace = w.trace ++ e1 ++ e2 ∧
      isTransfer p b1 e1 = true ∧ isTransfer p b2 e2 = true ∧
      b1 >>> 4 = D >>> 6 ∧ (b2 >>> 2) &&& 0x1F = D &&& 0x1F ∧
      D &&& 0x3DF = ((b1 >>> 4) <<< 6) ||| ((b2 >>> 2) &&& 0x1F) := by
  obtain ⟨w', e1, e2, hrun, htr, h1, h2⟩ :=
    voice_freq_transfers env p fuel D r w h (by omega) (by omega)
  obtain ⟨f1, f2, f3⟩ := freq_pair_fields D (by omega) r hr
  exact ⟨w', e1, e2, _, _, hrun, htr, h1, h2, f1, f2, by rw [f1, f2]; exact f3⟩

theorem busOf_snoc (p : s_sn76489) (hist : List Event) (e : Event) :
    busOf p (hist ++ [e]) = Bus.step p (busOf p hist) e := by
  simp [busOf, List.foldl_append]

theorem Run.bind_spinning (r : Run) (k : World → Run) (h : r.returned = false) :
    (r.bind k).returned = false := by
  cases r with
  | done w => simp [Run.returned] at h
  | spin w => rfl

theorem pollReady_high (env : Pins) (p : s_sn76489) (fuel : Nat) (w : World)
    (h : (u8 (env w.trace p.p_ctrlPortR)).testBit p.ready = true) :
    pollReady env p (fuel + 1) w = Run.done (sampleCtrl env p w) := by
  rw [pollReady_succ, if_neg]
  simp [h]

theorem pollReady_low (env : Pins) (p : s_sn76489) (fuel : Nat) (w : World)
    (h : (u8 (env w.trace p.p_ctrlPortR)).testBit p.ready = false) :
    pollReady env p (fuel + 1) w = pollReady env p fuel (sampleCtrl env p w) := by
  rw [pollReady_succ, if_pos h]

theorem u8_zero : u8 0 = 0 := rfl

theorem pollReady_strictMock_spin (p : s_sn76489) (d k : Nat) :
    ∀ (fuel : Nat) (w : World), (busOf p w.trace).data = none →
      (pollReady (strictMock p d k) p fuel w).returned = false := by
  intro fuel
  induction fuel with
  | zero => intro w _; rfl
  | succ n ih =>
    intro w hw
    have hv : strictMock p d k w.trace p.p_ctrlPortR = 0 := by
      simp [strictMock, Bus.latched, hw]
    rw [pollReady_low]
    · apply ih
      simp [sampleCtrl, busOf_snoc, Bus.step, hw]
    · rw [hv]; simp [u8_zero]

theorem sendData_strictMock_spin (p : s_sn76489) (d k fuel data : Nat) (w : World)
    (hw : (busOf p w.trace).data = none) :
    (sendData (strictMock p d k) fuel p data w).returned = false := by
  unfold sendData
  apply Run.bind_spinning
  apply pollReady_strictMock_spin
  simp [di, busOf_snoc, Bus.step, hw]

theorem testBit_u8_bit1_self (n : Nat) (h : n ≤ 7) : (u8 (bit1 n)).testBit n = true := by
  have h1 : n < 8 := by omega
  have h2 : n < 16 := by omega
  simp [testBit_u8, testBit_bit1, h1, h2]

theorem pollReady_chipMock_wait (p : s_sn76489) (d k : Nat) (hrd : p.ready ≤ 7) :
    ∀ (n fuel : Nat) (w : World),
      (busOf p w.trace).ctrl.testBit p.nCE = false →
      (busOf p w.trace).ctrl.testBit p.nWE = false →
      (busOf p w.trace).data = some d →
      (busOf p w.trace).polls + n = k → n < fuel →
      pollReady (chipMock p d k) p fuel w =
        Run.done { w with
          trace := w.trace ++ List.replicate n (Event.rd p.p_ctrlPortR 0) ++
            [Event.rd p.p_ctrlPortR (u8 (bit1 p.ready))] } := by
  intro n
  induction n with
  | zero =>
    intro fuel w h1 h2 h3 h4 h5
    obtain ⟨f, rfl⟩ : ∃ f, fuel = f + 1 := ⟨fuel - 1, by omega⟩
    have hv : chipMock p d k w.trace p.p_ctrlPortR = bit1 p.ready := by
      have : k ≤ (busOf p w.trace).polls := by omega
      simp [chipMock, Bus.latched, h1, h2, h3, this]
    rw [pollReady_high]
    · simp [sampleCtrl, hv]
    · rw [hv]; exact testBit_u8_bit1_self _ hrd
  | succ n ih =>
    intro fuel w h1 h2 h3 h4 h5
    obtain ⟨f, rfl⟩ : ∃ f, fuel = f + 1 := ⟨fuel - 1, by omega⟩
    have hv : chipMock p d k w.trace p.p_ctrlPortR = 0 := by
      have : ¬ k ≤ (busOf p w.trace).polls := by omega
      simp [chipMock, Bus.latched, h1, this]
    rw [pollReady_low]
    · rw [ih f (sampleCtrl (chipMock p d k) p w)]
      · simp [sampleCtrl, hv, u8_zero, List.replicate_succ]
      · simpa [sampleCtrl, busOf_snoc, Bus.step] using h1
      · simpa [sampleCtrl, busOf_snoc, Bus.step] using h2
      · simpa [sampleCtrl, busOf_snoc, Bus.step] using h3
      · simp only [sampleCtrl, busOf_snoc, Bus.step]; omega
      · omega
    · rw [hv]; simp [u8_zero]

theorem testBit_255 (n : Nat) (h : n ≤ 7) : (255 : Nat).testBit n = true := by
  have h8 : n < 8 := by omega
  interval_cases n <;> decide

theorem load_sampleCtrl (env : Pins) (p : s_sn76489) (w : World) (a : Nat) :
    load (sampleCtrl env p w) a = load w a := rfl

theorem load_di (w : World) (a : Nat) : load (di w) a = load w a := rfl

theorem load_ei (w : World) (a : Nat) : load (ei w) a = load w a := rfl

theorem load_with_trace (w : World) (t : List Event) (a : Nat) :
    load { w with trace := t } a = load w a := rfl

theorem assertBus_trace (p : s_sn76489) (d : Nat) (w : World)
    (hports : p.p_dataPortW ≠ p.p_ctrlPortW) :
    (assertBus p d w).trace = w.trace ++
      [Event.wr p.p_ctrlPortW (u8 (load w p.p_ctrlPortW &&& bnot (bit1 p.nCE))),
        Event.wr p.p_dataPortW (u8 d),
        Event.wr p.p_ctrlPortW
          (u8 (u8 (load w p.p_ctrlPortW &&& bnot (bit1 p.nCE)) &&& bnot (bit1 p.nWE)))] := by
  simp only [assertBus, store_trace, load_store_other _ _ _ _ hports.symm, load_store_same,
    List.append_assoc, List.singleton_append]
  rfl

theorem assertBus_load (p : s_sn76489) (d : Nat) (w : World)
    (hports : p.p_dataPortW ≠ p.p_ctrlPortW) :
    load (assertBus p d w) p.p_ctrlPortW =
      u8 (u8 (load w p.p_ctrlPortW &&& bnot (bit1 p.nCE)) &&& bnot (bit1 p.nWE)) := by
  simp only [assertBus, load_store_other _ _ _ _ hports.symm, load_store_same]

theorem releaseBus_trace (p : s_sn76489) (w : World) :
    (releaseBus p w).trace = w.trace ++
      [Event.wr p.p_ctrlPortW (u8 (load w p.p_ctrlPortW ||| bit1 p.nCE)),
        Event.wr p.p_ctrlPortW (u8 (u8 (load w p.p_ctrlPortW ||| bit1 p.nCE) ||| bit1 p.nWE))] := by
  simp only [releaseBus, store_trace, load_store_same, List.append_assoc, List.singleton_append]

theorem releaseBus_load (p : s_sn76489) (w : World) :
    load (releaseBus p w) p.p_ctrlPortW =
      u8 (u8 (load w p.p_ctrlPortW ||| bit1 p.nCE) ||| bit1 p.nWE) := by
  simp only [releaseBus, load_store_same]

theorem readyAlways_high (p : s_sn76489) (h : p.ready ≤ 7) : ReadyHigh readyAlways p := by
  intro hist
  have h8 : p.ready < 8 := by omega
  have e : u8 (readyAlways hist p.p_ctrlPortR) = 255 := rfl
  rw [e]
  exact testBit_255 _ h

theorem initSN76489_transfers (env : Pins) (fuel : Nat) (s : s_sn76489) (a b c : Nat)
    (w : World) (ha : a ≠ 0) (hb : b ≠ 0) (hc : c ≠ 0)
    (hready : ReadyHigh env { s with p_dataPortW := a, p_ctrlPortR := b, p_ctrlPortW := c }) :
    ∃ w' e1 e2 e3 e4,
      initSN76489 env (fuel + 1) (some s) a b c w =
        (some { s with p_dataPortW := a, p_ctrlPortR := b, p_ctrlPortW := c }, Run.done w') ∧
      w'.trace = w.trace ++ [Event.wr a 0, Event.wr c 0xFF] ++ e1 ++ e2 ++ e3 ++ e4 ∧
      isTransfer { s with p_dataPortW := a, p_ctrlPortR := b, p_ctrlPortW := c } 0xF1 e1 = true ∧
      isTransfer { s with p_dataPortW := a, p_ctrlPortR := b, p_ctrlPortW := c } 0xF1 e2 = true ∧
      isTransfer { s with p_dataPortW := a, p_ctrlPortR := b, p_ctrlPortW := c } 0xF1 e3 = true ∧
      isTransfer { s with p_dataPortW := a, p_ctrlPortR := b, p_ctrlPortW := c } 0xF1 e4 = true := by
  obtain ⟨w1, e1, hs1, ht1, hi1⟩ := sendData_isTransfer env
    { s with p_dataPortW := a, p_ctrlPortR := b, p_ctrlPortW := c } fuel
    ((VOICE1_ATTN <<< REG_SHIFT) ||| 0xF0 ||| FIRST_BYTE) (store (store w a 0) c (bnot 0)) hready
  obtain ⟨w2, e2, hs2, ht2, hi2⟩ := sendData_isTransfer env
    { s with p_dataPortW := a, p_ctrlPortR := b, p_ctrlPortW := c } fuel
    ((VOICE2_ATTN <<< REG_SHIFT) ||| 0xF0 ||| FIRST_BYTE) w1 hready
  obtain ⟨w3, e3, hs3, ht3, hi3⟩ := sendData_isTransfer env
    { s with p_dataPortW := a, p_ctrlPortR := b, p_ctrlPortW := c } fuel
    ((VOICE3_ATTN <<< REG_SHIFT) ||| 0xF0 ||| FIRST_BYTE) w2 hready
  obtain ⟨w4, e4, hs4, ht4, hi4⟩ := sendData_isTransfer env
    { s with p_dataPortW := a, p_ctrlPortR := b, p_ctrlPortW := c } fuel
    ((NOISE_ATTN <<< REG_SHIFT) ||| 0xF0 ||| FIRST_BYTE) w3 hready
  refine ⟨w4, e1, e2, e3, e4, ?_, ?_, hi1, hi2, hi3, hi4⟩
  · simp only [initSN76489, if_neg ha, if_neg hb, if_neg hc, hs1, hs2, hs3, hs4, Run.bind]
  · rw [ht4, ht3, ht2, ht1]
    simp only [store_trace, List.append_assoc]
    rfl

/-! ## The claims -/

/-- C1 (mute-on-init), evaluated on the code: with ready reading high,
`initSN76489` on the example handle and ports returns, and the bytes it writes
to the data port are the initial `0` followed by `0xF1` four times.  The four
attenuation setters at level `0xF` write `0xF9`, `0xFD`, `0xFB` and `0xFF`:
none of the four bytes of `initSN76489` is the byte of the corresponding
setter, and all four carry register code 0 (voice-1 frequency). -/
theorem initSN76489_sends_0xF1 :
    (initSN76489 readyAlways 1 (some demoHandle) 10 11 12 idleWorld).2.returned = true ∧
    writesTo 10 (initSN76489 readyAlways 1 (some demoHandle) 10 11 12 idleWorld).2.world.trace =
      [0x00, 0xF1, 0xF1, 0xF1, 0xF1] ∧
    writesTo 10 (setSN76489voice1_attn readyAlways 1 demoHandle 0xF idleWorld).world.trace =
      [0xF9] ∧
    writesTo 10 (setSN76489voice2_attn readyAlways 1 demoHandle 0xF idleWorld).world.trace =
      [0xFD] ∧
    writesTo 10 (setSN76489voice3_attn readyAlways 1 demoHandle 0xF idleWorld).world.trace =
      [0xFB] ∧
    writesTo 10 (setSN76489noise_attn readyAlways 1 demoHandle 0xF idleWorld).world.trace =
      [0xFF] := by
  decide

/-- C2: for every 16-bit divisor `D`, with ready reading high, each of the
three frequency setters returns after exactly two transfers, in this order:
first the byte `((D & 0x3C0) >> 2) | (regCode << 1) | 0x01`, then the byte
`((D & 0x01F) << 2) | 0x00`, with `regCode` 0 for voice 1, 2 for voice 2 and 1
for voice 3; and `D = 0x155` on voice 1 sends `0x51` then `0x54`. -/
theorem setSN76489voice_freq_two_transfers (env : Pins) (p : s_sn76489) (fuel D : Nat)
    (w : World) (hready : ReadyHigh env p) (hD : D < 2 ^ 16) :
    (∃ w' e1 e2, setSN76489voice1_freq env (fuel + 1) p D w = Run.done w' ∧
        w'.trace = w.trace ++ e1 ++ e2 ∧
        isTransfer p (((D &&& 0x3C0) >>> 2) ||| (0 <<< 1) ||| 0x01) e1 = true ∧
        isTransfer p (((D &&& 0x01F) <<< 2) ||| 0x00) e2 = true) ∧
    (∃ w' e1 e2, setSN76489voice2_freq env (fuel + 1) p D w = Run.done w' ∧
        w'.trace = w.trace ++ e1 ++ e2 ∧
        isTransfer p (((D &&& 0x3C0) >>> 2) ||| (2 <<< 1) ||| 0x01) e1 = true ∧
        isTransfer p (((D &&& 0x01F) <<< 2) ||| 0x00) e2 = true) ∧
    (∃ w' e1 e2, setSN76489voice3_freq env (fuel + 1) p D w = Run.done w' ∧
        w'.trace = w.trace ++ e1 ++ e2 ∧
        isTransfer p (((D &&& 0x3C0) >>> 2) ||| (1 <<< 1) ||| 0x01) e1 = true ∧
        isTransfer p (((D &&& 0x01F) <<< 2) ||| 0x00) e2 = true) ∧
    (∃ w' e1 e2, setSN76489voice1_freq env (fuel + 1) p 0x155 w = Run.done w' ∧
        w'.trace = w.trace ++ e1 ++ e2 ∧
        isTransfer p 0x51 e1 = true ∧ isTransfer p 0x54 e2 = true) :=
  ⟨voice_freq_transfers env p fuel D VOICE1_FREQ w hready hD (by decide),
   voice_freq_transfers env p fuel D VOICE2_FREQ w hready hD (by decide),
   voice_freq_transfers env p fuel D VOICE3_FREQ w hready hD (by decide),
   voice_freq_transfers env p fuel 0x155 VOICE1_FREQ w hready (by decide) (by decide)⟩

/-- Witness of C2: the example handle, ready always high, divisor `0x155`. -/
theorem setSN76489voice_freq_two_transfers_witness :
    ReadyHigh readyAlways demoHandle ∧ 0x155 < 2 ^ 16 ∧
    ∃ w' e1 e2, setSN76489voice1_freq readyAlways (0 + 1) demoHandle 0x155 idleWorld =
        Run.done w' ∧
      w'.trace = idleWorld.trace ++ e1 ++ e2 ∧
      isTransfer demoHandle 0x51 e1 = true ∧ isTransfer demoHandle 0x54 e2 = true :=
  ⟨readyAlways_high demoHandle (by decide), by decide,
    (setSN76489voice_freq_two_transfers readyAlways demoHandle 0 0x155 idleWorld
      (readyAlways_high demoHandle (by decide)) (by decide)).2.2.2⟩

/-- C3, refuted as stated: the divisors `0x00` and `0x20` are distinct, both
within `0..0x3FF`, and voice 1 sends the same byte pair `0x01`, `0x00` for
both; the second of them has bits 5:4 equal to `0b10`, of which byte 1 carries
nothing. -/
theorem voice_freq_bit5_lost :
    (0x00 : Nat) ≤ 0x3FF ∧ (0x20 : Nat) ≤ 0x3FF ∧ (0x00 : Nat) ≠ 0x20 ∧
    (setSN76489voice1_freq readyAlways 1 demoHandle 0x00 idleWorld).returned = true ∧
    (setSN76489voice1_freq readyAlways 1 demoHandle 0x20 idleWorld).returned = true ∧
    writesTo demoHandle.p_dataPortW
      (setSN76489voice1_freq readyAlways 1 demoHandle 0x00 idleWorld).world.trace = [0x01, 0x00] ∧
    writesTo demoHandle.p_dataPortW
      (setSN76489voice1_freq readyAlways 1 demoHandle 0x20 idleWorld).world.trace = [0x01, 0x00] := by
  decide

/-- C3, amended: for each voice and every divisor `D` in `0..0x3FF`, with ready
reading high, the setter returns after two transfers of bytes `b1`, `b2` such
that the upper nibble of `b1` is bits 9:6 of `D` and bits 6:2 of `b2` are bits
4:0 of `D`; so bits 9:6 and 4:0 of `D` are determined by the pair. -/
theorem setSN76489voice_freq_fields (env : Pins) (p : s_sn76489) (fuel D : Nat) (w : World)
    (hready : ReadyHigh env p) (hD : D ≤ 0x3FF) :
    (∃ w' e1 e2 b1 b2, setSN76489voice1_freq env (fuel + 1) p D w = Run.done w' ∧
        w'.trace = w.trace ++ e1 ++ e2 ∧
        isTransfer p b1 e1 = true ∧ isTransfer p b2 e2 = true ∧
        b1 >>> 4 = D >>> 6 ∧ (b2 >>> 2) &&& 0x1F = D &&& 0x1F ∧
        D &&& 0x3DF = ((b1 >>> 4) <<< 6) ||| ((b2 >>> 2) &&& 0x1F)) ∧
    (∃ w' e1 e2 b1 b2, setSN76489voice2_freq env (fuel + 1) p D w = Run.done w' ∧
        w'.trace = w.trace ++ e1 ++ e2 ∧
        isTransfer p b1 e1 = true ∧ isTransfer p b2 e2 = true ∧
        b1 >>> 4 = D >>> 6 ∧ (b2 >>> 2) &&& 0x1F = D &&& 0x1F ∧
        D &&& 0x3DF = ((b1 >>> 4) <<< 6) ||| ((b2 >>> 2) &&& 0x1F)) ∧
    (∃ w' e1 e2 b1 b2, setSN76489voice3_freq env (fuel + 1) p D w = Run.done w' ∧
        w'.trace = w.trace ++ e1 ++ e2 ∧
        isTransfer p b1 e1 = true ∧ isTransfer p b2 e2 = true ∧
        b1 >>> 4 = D >>> 6 ∧ (b2 >>> 2) &&& 0x1F = D &&& 0x1F ∧
        D &&& 0x3DF = ((b1 >>> 4) <<< 6) ||| ((b2 >>> 2) &&& 0x1F)) :=
  ⟨voice_freq_fields env p fuel D VOICE1_FREQ w hready hD (by decide),
   voice_freq_fields env p fuel D VOICE2_FREQ w hready hD (by decide),
   voice_freq_fields env p fuel D VOICE3_FREQ w hready hD (by decide)⟩

/-- Witness of the amended C3: the example handle, ready always high, divisor
`0x155`. -/
theorem setSN76489voice_freq_fields_witness :
    ReadyHigh readyAlways demoHandle ∧ 0x155 ≤ 0x3FF ∧
    ∃ w' e1 e2 b1 b2, setSN76489voice1_freq readyAlways (0 + 1) demoHandle 0x155 idleWorld =
        Run.done w' ∧
      w'.trace = idleWorld.trace ++ e1 ++ e2 ∧
      isTransfer demoHandle b1 e1 = true ∧ isTransfer demoHandle b2 e2 = true ∧
      b1 >>> 4 = 0x155 >>> 6 ∧ (b2 >>> 2) &&& 0x1F = 0x155 &&& 0x1F ∧
      0x155 &&& 0x3DF = ((b1 >>> 4) <<< 6) ||| ((b2 >>> 2) &&& 0x1F) :=
  ⟨readyAlways_high demoHandle (by decide), by decide,
    (setSN76489voice_freq_fields readyAlways demoHandle 0 0x155 idleWorld
      (readyAlways_high demoHandle (by decide)) (by decide)).1⟩

/-- C4: for every attenuation level `L` in `0..0xF`, with ready reading high,
each of the four attenuation setters returns after exactly one transfer, of
the byte `(L << 4) | (regCode << 1) | 0x01` with `regCode` 4 (voice 1), 6
(voice 2), 5 (voice 3), 7 (noise); the upper nibble of that byte is `L`, its
bits 3:1 are the register code and its bit 0 is 1. -/
theorem setSN76489_attn_one_transfer (env : Pins) (p : s_sn76489) (fuel L : Nat)
    (w : World) (hready : ReadyHigh env p) (hL : L ≤ 0xF) :
    (∃ w' e, setSN76489voice1_attn env (fuel + 1) p L w = Run.done w' ∧
        w'.trace = w.trace ++ e ∧ isTransfer p ((L <<< 4) ||| (4 <<< 1) ||| 0x01) e = true) ∧
    (∃ w' e, setSN76489voice2_attn env (fuel + 1) p L w = Run.done w' ∧
        w'.trace = w.trace ++ e ∧ isTransfer p ((L <<< 4) ||| (6 <<< 1) ||| 0x01) e = true) ∧
    (∃ w' e, setSN76489voice3_attn env (fuel + 1) p L w = Run.done w' ∧
        w'.trace = w.trace ++ e ∧ isTransfer p ((L <<< 4) ||| (5 <<< 1) ||| 0x01) e = true) ∧
    (∃ w' e, setSN76489noise_attn env (fuel + 1) p L w = Run.done w' ∧
        w'.trace = w.trace ++ e ∧ isTransfer p ((L <<< 4) ||| (7 <<< 1) ||| 0x01) e = true) ∧
    (∀ r, r < 8 →
      ((L <<< 4) ||| (r <<< 1) ||| 0x01) >>> 4 = L ∧
      (((L <<< 4) ||| (r <<< 1) ||| 0x01) >>> 1) &&& 0x7 = r ∧
      ((L <<< 4) ||| (r <<< 1) ||| 0x01) &&& 0x01 = 1) := by
  refine ⟨attn_transfer env p fuel L VOICE1_ATTN w hready hL (by decide),
    attn_transfer env p fuel L VOICE2_ATTN w hready hL (by decide),
    attn_transfer env p fuel L VOICE3_ATTN w hready hL (by decide),
    attn_transfer env p fuel L NOISE_ATTN w hready hL (by decide), ?_⟩
  intro r hr
  have hL' : L < 16 := by omega
  interval_cases L <;> interval_cases r <;> decide

/-- Witness of C4: the example handle, ready always high, level `0xF` on
voice 1. -/
theorem setSN76489_attn_one_transfer_witness :
    ReadyHigh readyAlways demoHandle ∧ 0xF ≤ 0xF ∧
    ∃ w' e, setSN76489voice1_attn readyAlways (0 + 1) demoHandle 0xF idleWorld = Run.done w' ∧
      w'.trace = idleWorld.trace ++ e ∧
      isTransfer demoHandle ((0xF <<< 4) ||| (4 <<< 1) ||| 0x01) e = true :=
  ⟨readyAlways_high demoHandle (by decide), by decide,
    (setSN76489_attn_one_transfer readyAlways demoHandle 0 0xF idleWorld
      (readyAlways_high demoHandle (by decide)) (by decide)).1⟩

/-- C5: for every rate in `0..3` and type in `0..1`, with ready reading high,
`setSN76489noiseCtrl` returns after exactly one transfer, of the byte
`(rate << 6) | (type << 5) | (NOISE_CTRL << 1) | 0x01` with `NOISE_CTRL = 3`;
bits 7:6 of that byte are the rate, bit 5 is the type, bits 4:1 are 3 and
bit 0 is 1; and type 1 with rate 2 sends exactly the byte `0xA7`. -/
theorem setSN76489noiseCtrl_one_transfer (env : Pins) (p : s_sn76489) (fuel type rate : Nat)
    (w : World) (hready : ReadyHigh env p) (htype : type ≤ 1) (hrate : rate ≤ 3) :
    (∃ w' e, setSN76489noiseCtrl env (fuel + 1) p type rate w = Run.done w' ∧
        w'.trace = w.trace ++ e ∧
        isTransfer p ((rate <<< 6) ||| (type <<< 5) ||| (3 <<< 1) ||| 0x01) e = true) ∧
    ((rate <<< 6) ||| (type <<< 5) ||| (3 <<< 1) ||| 0x01) >>> 6 = rate ∧
    (((rate <<< 6) ||| (type <<< 5) ||| (3 <<< 1) ||| 0x01) >>> 5) &&& 0x1 = type ∧
    (((rate <<< 6) ||| (type <<< 5) ||| (3 <<< 1) ||| 0x01) >>> 1) &&& 0xF = 3 ∧
    ((rate <<< 6) ||| (type <<< 5) ||| (3 <<< 1) ||| 0x01) &&& 0x01 = 1 ∧
    (∃ w' e, setSN76489noiseCtrl env (fuel + 1) p 1 2 w = Run.done w' ∧
        w'.trace = w.trace ++ e ∧ isTransfer p 0xA7 e = true) := by
  have key : ∀ t r : Nat, t ≤ 1 → r ≤ 3 →
      ∃ w' e, setSN76489noiseCtrl env (fuel + 1) p t r w = Run.done w' ∧
        w'.trace = w.trace ++ e ∧
        isTransfer p ((r <<< 6) ||| (t <<< 5) ||| (3 <<< 1) ||| 0x01) e = true := by
    intro t r ht hr
    obtain ⟨w1, e1, hs1, ht1, hi1⟩ := sendData_isTransfer env p fuel
      ((u8 r <<< 6) ||| (u8 t <<< 5) ||| (NOISE_CTRL <<< 1) ||| FIRST_BYTE) w hready
    have hut : u8 t = t := Nat.mod_eq_of_lt (by omega)
    have hur : u8 r = r := Nat.mod_eq_of_lt (by omega)
    rw [hut, hur] at hs1 hi1
    rw [u8, Nat.mod_eq_of_lt (noise_byte_lt t r ht hr)] at hi1
    refine ⟨w1, e1, ?_, ht1, hi1⟩
    simp only [setSN76489noiseCtrl, hut, hur]
    exact hs1
  refine ⟨key type rate htype hrate, ?_, ?_, ?_, ?_, key 1 2 (by decide) (by decide)⟩ <;>
    (have ht' : type < 2 := by omega
     have hr' : rate < 4 := by omega
     interval_cases type <;> interval_cases rate <;> decide)

/-- Witness of C5: the example handle, ready always high, type 1, rate 2. -/
theorem setSN76489noiseCtrl_one_transfer_witness :
    ReadyHigh readyAlways demoHandle ∧ 1 ≤ 1 ∧ 2 ≤ 3 ∧
    ∃ w' e, setSN76489noiseCtrl readyAlways (0 + 1) demoHandle 1 2 idleWorld = Run.done w' ∧
      w'.trace = idleWorld.trace ++ e ∧ isTransfer demoHandle 0xA7 e = true :=
  ⟨readyAlways_high demoHandle (by decide), by decide, by decide,
    (setSN76489noiseCtrl_one_transfer readyAlways demoHandle 0 1 2 idleWorld
      (readyAlways_high demoHandle (by decide)) (by decide) (by decide)).2.2.2.2.2⟩

/-- C6: for every 32-bit reference clock `R` and every shift `s` in `0..7`,
`getSN76489_FreqDiv R s` is defined and equals `(R / (5 << s)) & 0x3FF`; the
divisor `5 << s` is not zero and the result is at most `0x3FF`. -/
theorem getSN76489_FreqDiv_spec (R s : Nat) (hR : R < 2 ^ 32) (hs : s ≤ 7) :
    getSN76489_FreqDiv R s = some ((R / (5 <<< s)) &&& 0x3FF) ∧
    5 <<< s ≠ 0 ∧
    (R / (5 <<< s)) &&& 0x3FF ≤ 0x3FF := by
  have hle : (R / (5 <<< s)) &&& 0x3FF ≤ 0x3FF := Nat.and_le_right
  have huR : u32 R = R := Nat.mod_eq_of_lt hR
  have hus : u32 s = s := Nat.mod_eq_of_lt (by omega)
  have hsh : 5 <<< s < 2 ^ 15 ∧ 5 <<< s ≠ 0 := by
    have : s < 8 := by omega
    interval_cases s <;> decide
  refine ⟨?_, hsh.2, hle⟩
  have hlt : s < 16 := by omega
  simp only [getSN76489_FreqDiv, huR, hus, INT_BITS]
  rw [if_pos ⟨hlt, hsh.1⟩, u16, Nat.mod_eq_of_lt (by omega)]

/-- Witness of C6: the NTSC colour-burst clock 3579545 Hz with shift 5. -/
theorem getSN76489_FreqDiv_spec_witness :
    3579545 < 2 ^ 32 ∧ 5 ≤ 7 ∧
    getSN76489_FreqDiv 3579545 5 = some ((3579545 / (5 <<< 5)) &&& 0x3FF) ∧
    5 <<< 5 ≠ 0 ∧ (3579545 / (5 <<< 5)) &&& 0x3FF ≤ 0x3FF :=
  ⟨by decide, by decide, getSN76489_FreqDiv_spec 3579545 5 (by decide) (by decide)⟩

/-- C7 (configuration guard): `initSN76489port` with a null handle, a null
data-direction register or a null control-direction register, and
`initSN76489` with a null handle or any null port, change nothing: the handle
comes back as it was, and so does the machine, registers and history alike (no
register written, no transfer performed). -/
theorem init_null_guard (env : Pins) (fuel : Nat) (h : Option s_sn76489)
    (a b c nWE nCE ready : Nat) (w : World) :
    initSN76489port none a b nWE nCE ready w = (none, w) ∧
    initSN76489port h 0 b nWE nCE ready w = (h, w) ∧
    initSN76489port h a 0 nWE nCE ready w = (h, w) ∧
    initSN76489 env fuel none a b c w = (none, Run.done w) ∧
    initSN76489 env fuel h 0 b c w = (h, Run.done w) ∧
    initSN76489 env fuel h a 0 c w = (h, Run.done w) ∧
    initSN76489 env fuel h a b 0 w = (h, Run.done w) := by
  refine ⟨?_, ?_, ?_, ?_, ?_, ?_, ?_⟩
  · simp only [initSN76489port]; split_ifs <;> rfl
  · simp [initSN76489port]
  · simp [initSN76489port]
  · simp only [initSN76489]; split_ifs <;> rfl
  · simp [initSN76489]
  · simp [initSN76489]
  · simp [initSN76489]

/-- C8: for a non-null handle, non-null and distinct direction registers, and
pin indices in `0..7` with the ready pin different from the other two, after
`initSN76489port` the data-direction register is 0, the control-direction
register has bit `nWE` = 0, bit `nCE` = 0, bit `ready` = 1 and every other bit
as before the call, and the handle holds the three indices (its port fields
are untouched). -/
theorem initSN76489port_effect (s : s_sn76489) (p_dataTRIS p_ctrlTRIS nWE nCE ready : Nat)
    (w : World) (hd : p_dataTRIS ≠ 0) (hc : p_ctrlTRIS ≠ 0) (hdc : p_dataTRIS ≠ p_ctrlTRIS)
    (hwe : nWE ≤ 7) (hce : nCE ≤ 7) (hrd : ready ≤ 7)
    (h2 : nWE ≠ ready) (h3 : nCE ≠ ready) :
    ∃ s' w', initSN76489port (some s) p_dataTRIS p_ctrlTRIS nWE nCE ready w = (some s', w') ∧
      load w' p_dataTRIS = 0 ∧
      (load w' p_ctrlTRIS).testBit nWE = false ∧
      (load w' p_ctrlTRIS).testBit nCE = false ∧
      (load w' p_ctrlTRIS).testBit ready = true ∧
      (∀ i, i ≠ nWE → i ≠ nCE → i ≠ ready →
        (load w' p_ctrlTRIS).testBit i = (load w p_ctrlTRIS).testBit i) ∧
      s'.nWE = nWE ∧ s'.nCE = nCE ∧ s'.ready = ready ∧
      s'.p_dataPortW = s.p_dataPortW ∧ s'.p_ctrlPortR = s.p_ctrlPortR ∧
      s'.p_ctrlPortW = s.p_ctrlPortW := by
  have e1 : u8 nWE = nWE := Nat.mod_eq_of_lt (by omega)
  have e2 : u8 nCE = nCE := Nat.mod_eq_of_lt (by omega)
  have e3 : u8 ready = ready := Nat.mod_eq_of_lt (by omega)
  have hrun : initSN76489port (some s) p_dataTRIS p_ctrlTRIS nWE nCE ready w =
      (some { s with nWE := nWE, nCE := nCE, ready := ready },
        store (store (store w p_dataTRIS 0) p_ctrlTRIS
            (load (store w p_dataTRIS 0) p_ctrlTRIS &&& bnot (bit1 nWE ||| bit1 nCE)))
          p_ctrlTRIS
          (load (store (store w p_dataTRIS 0) p_ctrlTRIS
            (load (store w p_dataTRIS 0) p_ctrlTRIS &&& bnot (bit1 nWE ||| bit1 nCE)))
            p_ctrlTRIS ||| bit1 ready)) := by
    simp only [initSN76489port, if_neg hd, if_neg hc, e1, e2, e3]
  refine ⟨_, _, hrun, ?_, ?_, ?_, ?_, ?_, rfl, rfl, rfl, rfl, rfl, rfl⟩
  · rw [load_store_other _ _ _ _ hdc, load_store_other _ _ _ _ hdc, load_store_same]; rfl
  · simp only [load_store_same, testBit_u8, Nat.testBit_or, Nat.testBit_and, testBit_bit1,
      testBit_bnot]
    simp [h2.symm]
    intros; omega
  · simp only [load_store_same, testBit_u8, Nat.testBit_or, Nat.testBit_and, testBit_bit1,
      testBit_bnot]
    simp [h3.symm]
    intros; omega
  · simp only [load_store_same, testBit_u8, Nat.testBit_or, Nat.testBit_and, testBit_bit1,
      testBit_bnot]
    simp; omega
  · intro i hi1 hi2 hi3
    simp only [load_store_same, testBit_u8, Nat.testBit_or, Nat.testBit_and, testBit_bit1,
      testBit_bnot]
    rw [load_store_other _ _ _ _ hdc.symm]
    have hb : (load w p_ctrlTRIS).testBit i =
        (decide (i < 8) && (load w p_ctrlTRIS).testBit i) := by
      rw [← testBit_u8]; simp [load]
    rw [hb]
    by_cases h8 : i < 8
    · have h16 : i < 16 := by omega
      simp [h8, h16, Ne.symm hi1, Ne.symm hi2, Ne.symm hi3]
    · simp [h8]

/-- Witness of C8: direction registers at addresses 20 and 21, write-enable on
bit 0, chip-enable on bit 1, ready on bit 2. -/
theorem initSN76489port_effect_witness :
    (20 : Nat) ≠ 0 ∧ (21 : Nat) ≠ 0 ∧ (20 : Nat) ≠ 21 ∧ 0 ≤ 7 ∧ 1 ≤ 7 ∧ 2 ≤ 7 ∧
    (0 : Nat) ≠ 2 ∧ (1 : Nat) ≠ 2 ∧
    ∃ s' w', initSN76489port (some demoHandle) 20 21 0 1 2 idleWorld = (some s', w') ∧
      load w' 20 = 0 ∧
      (load w' 21).testBit 0 = false ∧
      (load w' 21).testBit 1 = false ∧
      (load w' 21).testBit 2 = true ∧
      (∀ i, i ≠ 0 → i ≠ 1 → i ≠ 2 →
        (load w' 21).testBit i = (load idleWorld 21).testBit i) ∧
      s'.nWE = 0 ∧ s'.nCE = 1 ∧ s'.ready = 2 ∧
      s'.p_dataPortW = demoHandle.p_dataPortW ∧ s'.p_ctrlPortR = demoHandle.p_ctrlPortR ∧
      s'.p_ctrlPortW = demoHandle.p_ctrlPortW :=
  ⟨by decide, by decide, by decide, by decide, by decide, by decide, by decide, by decide,
    initSN76489port_effect demoHandle 20 21 0 1 2 idleWorld (by decide) (by decide) (by decide)
      (by decide) (by decide) (by decide) (by decide) (by decide)⟩

/-- C9 (handshake order): for a handle with chip-enable and write-enable pins
in `0..7` and every data byte, when the ready bit reads high, `sendData`
returns and the events it adds to the history are exactly these nine, in this
order: disable interrupts; sample ready (high); write the control port with
the chip-enable bit low; write the data byte to the data port; write the
control port with the write-enable bit low; sample ready (high); write the
control port with the chip-enable bit high; write the control port with the
write-enable bit high; enable interrupts.  Hence every port access happens
while interrupts are masked, and interrupts are enabled exactly once, as the
last event. -/
theorem sendData_handshake_order (env : Pins) (p : s_sn76489) (fuel data : Nat) (w : World)
    (hready : ReadyHigh env p) (hdata : data < 256) (hce : p.nCE ≤ 7) (hwe : p.nWE ≤ 7) :
    ∃ w' evs v1 c1 c2 v2 c3 c4,
      sendData env (fuel + 1) p data w = Run.done w' ∧
      w'.trace = w.trace ++ evs ∧
      evs = [Event.di, Event.rd p.p_ctrlPortR v1, Event.wr p.p_ctrlPortW c1,
        Event.wr p.p_dataPortW data, Event.wr p.p_ctrlPortW c2, Event.rd p.p_ctrlPortR v2,
        Event.wr p.p_ctrlPortW c3, Event.wr p.p_ctrlPortW c4, Event.ei] ∧
      v1.testBit p.ready = true ∧ c1.testBit p.nCE = false ∧ c2.testBit p.nWE = false ∧
      v2.testBit p.ready = true ∧ c3.testBit p.nCE = true ∧ c4.testBit p.nWE = true ∧
      accessesMasked w.gie evs = true ∧ countDi evs = 1 ∧ countEi evs = 1 ∧
      evs.getLast? = some Event.ei := by
  have hs := sendData_readyHigh env p fuel data w hready
  have h' : ∀ hist, (u8 (env hist p.p_ctrlPortR)).testBit p.ready = true := hready
  have hu : u8 data = data := Nat.mod_eq_of_lt hdata
  have h1 : p.nCE < 8 := by omega
  have h2 : p.nWE < 8 := by omega
  have h3 : p.nCE < 16 := by omega
  have h4 : p.nWE < 16 := by omega
  exact ⟨_, _, _, _, _, _, _, _, hs,
    by simp only [ei_trace, store_trace, sampleCtrl_trace, di_trace, assertBus, releaseBus,
        List.append_assoc, hu]; rfl,
    rfl, h' _,
    by simp [testBit_u8, testBit_bnot, testBit_bit1],
    by simp [testBit_u8, testBit_bnot, testBit_bit1],
    h' _,
    by simp [testBit_u8, testBit_bit1, h1, h3],
    by simp [testBit_u8, testBit_bit1, h2, h4],
    by simp [accessesMasked], by simp [countDi], by simp [countEi], by simp⟩

/-- Witness of C9: the example handle, ready always high, data byte `0xA7`. -/
theorem sendData_handshake_order_witness :
    ReadyHigh readyAlways demoHandle ∧ 0xA7 < 256 ∧ demoHandle.nCE ≤ 7 ∧ demoHandle.nWE ≤ 7 ∧
    ∃ w' evs v1 c1 c2 v2 c3 c4,
      sendData readyAlways (0 + 1) demoHandle 0xA7 idleWorld = Run.done w' ∧
      w'.trace = idleWorld.trace ++ evs ∧
      evs = [Event.di, Event.rd demoHandle.p_ctrlPortR v1, Event.wr demoHandle.p_ctrlPortW c1,
        Event.wr demoHandle.p_dataPortW 0xA7, Event.wr demoHandle.p_ctrlPortW c2,
        Event.rd demoHandle.p_ctrlPortR v2, Event.wr demoHandle.p_ctrlPortW c3,
        Event.wr demoHandle.p_ctrlPortW c4, Event.ei] ∧
      v1.testBit demoHandle.ready = true ∧ c1.testBit demoHandle.nCE = false ∧
      c2.testBit demoHandle.nWE = false ∧ v2.testBit demoHandle.ready = true ∧
      c3.testBit demoHandle.nCE = true ∧ c4.testBit demoHandle.nWE = true ∧
      accessesMasked idleWorld.gie evs = true ∧ countDi evs = 1 ∧ countEi evs = 1 ∧
      evs.getLast? = some Event.ei :=
  ⟨readyAlways_high demoHandle (by decide), by decide, by decide, by decide,
    sendData_handshake_order readyAlways demoHandle 0 0xA7 idleWorld
      (readyAlways_high demoHandle (by decide)) (by decide) (by decide) (by decide)⟩

/-- C10, refuted as stated: with the simulated ready line that starts low and
asserts only after chip-enable low, the data byte and write-enable low have
all been observed, a transfer of `0xA7` started on the example handle from the
idle control state (control port reading `0xFF`, no history) never completes,
whatever the bound on the number of samples: the first poll of `sendData`
comes before chip-enable is driven. -/
theorem strictMock_transfer_hangs :
    idleWorld.trace = [] ∧ load idleWorld demoHandle.p_ctrlPortW = 0xFF ∧
    ¬ ∃ fuel : Nat,
      (sendData (strictMock demoHandle 0xA7 0) fuel demoHandle 0xA7 idleWorld).returned = true := by
  refine ⟨rfl, by decide, ?_⟩
  rintro ⟨fuel, h⟩
  have := sendData_strictMock_spin demoHandle 0xA7 0 fuel 0xA7 idleWorld rfl
  rw [this] at h
  exact Bool.noConfusion h

/-- C10, amended: with a simulated ready line that reads high while
chip-enable is high and, once chip-enable is low, asserts only after the data
byte and write-enable low have been observed as well (and `k` further samples
have passed), a transfer started from the idle control state (control port
reading `0xFF`, no history) completes as soon as the bound on the samples
exceeds `k`, and the history of the completed transfer is the full sequence:
disable interrupts, sample ready (high), chip-enable low, data byte,
write-enable low, `k` samples of ready reading low, one sample reading high,
chip-enable high, write-enable high, enable interrupts. -/
theorem sendData_chipMock_completes (p : s_sn76489) (d k fuel : Nat) (w : World)
    (hd : d < 256) (hwe : p.nWE ≤ 7) (hce : p.nCE ≤ 7) (hrd : p.ready ≤ 7)
    (hports : p.p_dataPortW ≠ p.p_ctrlPortW)
    (hnew : w.trace = []) (hidle : load w p.p_ctrlPortW = 0xFF) (hfuel : k < fuel) :
    ∃ w' v c1 c2 c3 c4,
      sendData (chipMock p d k) fuel p d w = Run.done w' ∧
      w'.trace =
        [Event.di, Event.rd p.p_ctrlPortR v, Event.wr p.p_ctrlPortW c1,
          Event.wr p.p_dataPortW d, Event.wr p.p_ctrlPortW c2] ++
        List.replicate k (Event.rd p.p_ctrlPortR 0) ++
        [Event.rd p.p_ctrlPortR v, Event.wr p.p_ctrlPortW c3, Event.wr p.p_ctrlPortW c4,
          Event.ei] ∧
      v.testBit p.ready = true ∧
      c1.testBit p.nCE = false ∧
      c2.testBit p.nCE = false ∧ c2.testBit p.nWE = false ∧
      c3.testBit p.nCE = true ∧
      c4.testBit p.nCE = true ∧ c4.testBit p.nWE = true := by
  obtain ⟨f, rfl⟩ : ∃ f, fuel = f + 1 := ⟨fuel - 1, by omega⟩
  have hu : u8 d = d := Nat.mod_eq_of_lt hd
  have hce8 : p.nCE < 8 := by omega
  have hce16 : p.nCE < 16 := by omega
  have hwe8 : p.nWE < 8 := by omega
  have hwe16 : p.nWE < 16 := by omega
  -- the first poll: the bus is idle, ready reads high
  have hv1 : chipMock p d k [Event.di] p.p_ctrlPortR = bit1 p.ready := by
    simp [chipMock, busOf, Bus.step, Bus.idle, testBit_255 _ hce]
  have hditr : (di w).trace = [Event.di] := by simp [hnew]
  have hA : pollReady (chipMock p d k) p (f + 1) (di w) =
      Run.done (sampleCtrl (chipMock p d k) p (di w)) := by
    apply pollReady_high
    rw [hditr, hv1]; exact testBit_u8_bit1_self _ hrd
  -- the bus after chip-enable low, data out and write-enable low
  have htr : (assertBus p d (sampleCtrl (chipMock p d k) p (di w))).trace =
      [Event.di, Event.rd p.p_ctrlPortR (u8 (bit1 p.ready)),
        Event.wr p.p_ctrlPortW (u8 (0xFF &&& bnot (bit1 p.nCE))),
        Event.wr p.p_dataPortW d,
        Event.wr p.p_ctrlPortW (u8 (u8 (0xFF &&& bnot (bit1 p.nCE)) &&& bnot (bit1 p.nWE)))] := by
    rw [assertBus_trace _ _ _ hports, sampleCtrl_trace, hditr, hv1, load_sampleCtrl, load_di,
      hidle, hu]
    rfl
  have hbus : busOf p (assertBus p d (sampleCtrl (chipMock p d k) p (di w))).trace =
      { ctrl := u8 (u8 (0xFF &&& bnot (bit1 p.nCE)) &&& bnot (bit1 p.nWE)), data := some d,
        polls := 0 } := by
    rw [htr]
    simp [busOf, Bus.step, Bus.idle, hports, hports.symm]
  -- the second poll: `k` samples low, then high
  have hB := pollReady_chipMock_wait p d k hrd k (f + 1)
    (assertBus p d (sampleCtrl (chipMock p d k) p (di w)))
    (by rw [hbus]; simp [testBit_u8, testBit_bnot, testBit_bit1])
    (by rw [hbus]; simp [testBit_u8, testBit_bnot, testBit_bit1])
    (by rw [hbus]) (by rw [hbus]; simp) hfuel
  have hl := assertBus_load p d (sampleCtrl (chipMock p d k) p (di w)) hports
  rw [load_sampleCtrl, load_di, hidle] at hl
  refine ⟨ei (releaseBus p { assertBus p d (sampleCtrl (chipMock p d k) p (di w)) with
      trace := (assertBus p d (sampleCtrl (chipMock p d k) p (di w))).trace ++
        List.replicate k (Event.rd p.p_ctrlPortR 0) ++
        [Event.rd p.p_ctrlPortR (u8 (bit1 p.ready))] }), u8 (bit1 p.ready),
    u8 (0xFF &&& bnot (bit1 p.nCE)),
    u8 (u8 (0xFF &&& bnot (bit1 p.nCE)) &&& bnot (bit1 p.nWE)),
    u8 (u8 (u8 (0xFF &&& bnot (bit1 p.nCE)) &&& bnot (bit1 p.nWE)) ||| bit1 p.nCE),
    u8 (u8 (u8 (u8 (0xFF &&& bnot (bit1 p.nCE)) &&& bnot (bit1 p.nWE)) ||| bit1 p.nCE) |||
      bit1 p.nWE),
    ?_, ?_, testBit_u8_bit1_self _ hrd, ?_, ?_, ?_, ?_, ?_, ?_⟩
  · simp only [sendData, hA, Run.bind, hu]
    show (pollReady (chipMock p d k) p (f + 1)
      (assertBus p d (sampleCtrl (chipMock p d k) p (di w)))).bind _ = _
    rw [hB]
    rfl
  · rw [ei_trace, releaseBus_trace, load_with_trace, hl, htr]
    simp
  · simp [testBit_u8, testBit_bnot, testBit_bit1]
  · simp [testBit_u8, testBit_bnot, testBit_bit1]
  · simp [testBit_u8, testBit_bnot, testBit_bit1]
  · simp [testBit_u8, testBit_bnot, testBit_bit1, hce8, hce16]
  · simp [testBit_u8, testBit_bnot, testBit_bit1, hce8, hce16]
  · simp [testBit_u8, testBit_bnot, testBit_bit1, hwe8, hwe16]

/-- Witness of the amended C10: the example handle, data byte `0xA7`, a chip
that needs 3 samples, a bound of 4 samples. -/
theorem sendData_chipMock_completes_witness :
    0xA7 < 256 ∧ demoHandle.nWE ≤ 7 ∧ demoHandle.nCE ≤ 7 ∧ demoHandle.ready ≤ 7 ∧
    demoHandle.p_dataPortW ≠ demoHandle.p_ctrlPortW ∧ idleWorld.trace = [] ∧
    load idleWorld demoHandle.p_ctrlPortW = 0xFF ∧ 3 < 4 ∧
    ∃ w' v c1 c2 c3 c4,
      sendData (chipMock demoHandle 0xA7 3) 4 demoHandle 0xA7 idleWorld = Run.done w' ∧
      w'.trace =
        [Event.di, Event.rd demoHandle.p_ctrlPortR v, Event.wr demoHandle.p_ctrlPortW c1,
          Event.wr demoHandle.p_dataPortW 0xA7, Event.wr demoHandle.p_ctrlPortW c2] ++
        List.replicate 3 (Event.rd demoHandle.p_ctrlPortR 0) ++
        [Event.rd demoHandle.p_ctrlPortR v, Event.wr demoHandle.p_ctrlPortW c3,
          Event.wr demoHandle.p_ctrlPortW c4, Event.ei] ∧
      v.testBit demoHandle.ready = true ∧
      c1.testBit demoHandle.nCE = false ∧
      c2.testBit demoHandle.nCE = false ∧ c2.testBit demoHandle.nWE = false ∧
      c3.testBit demoHandle.nCE = true ∧
      c4.testBit demoHandle.nCE = true ∧ c4.testBit demoHandle.nWE = true :=
  ⟨by decide, by decide, by decide, by decide, by decide, rfl, by decide, by decide,
    sendData_chipMock_completes demoHandle 0xA7 3 4 idleWorld (by decide) (by decide)
      (by decide) (by decide) (by decide) rfl (by decide) (by decide)⟩

theorem Run.bind_done (r : Run) (k : World → Run) (w' : World) (h : r.bind k = Run.done w') :
    ∃ w1, r = Run.done w1 ∧ k w1 = Run.done w' := by
  cases r with
  | done w1 => exact ⟨w1, rfl, h⟩
  | spin w1 => simp [Run.bind] at h

/-- C11, refuted as stated: the example transfer entered with interrupts
already disabled completes, and returns with interrupts enabled. -/
theorem sendData_enables_interrupts :
    maskedWorld.gie = false ∧
    (sendData readyAlways 1 demoHandle 0xA7 maskedWorld).returned = true ∧
    (sendData readyAlways 1 demoHandle 0xA7 maskedWorld).world.gie = true := by
  decide

/-- C11, amended: every completed transfer returns with interrupts enabled,
whatever the interrupt-enable state on entry; so the state on return equals the
state on entry whenever interrupts were enabled on entry. -/
theorem sendData_returns_enabled (env : Pins) (fuel : Nat) (p : s_sn76489) (data : Nat)
    (w w' : World) (hdone : sendData env fuel p data w = Run.done w') :
    w'.gie = true ∧ (w.gie = true → w'.gie = w.gie) := by
  have hg : w'.gie = true := by
    unfold sendData at hdone
    obtain ⟨w1, _, h1⟩ := Run.bind_done _ _ _ hdone
    obtain ⟨w2, _, h2⟩ := Run.bind_done _ _ _ h1
    cases h2
    rfl
  exact ⟨hg, fun h => by rw [hg, h]⟩

/-- Witness of the amended C11: the example transfer with ready always high,
entered with interrupts enabled. -/
theorem sendData_returns_enabled_witness :
    sendData readyAlways 1 demoHandle 0xA7 idleWorld =
      Run.done (sendData readyAlways 1 demoHandle 0xA7 idleWorld).world ∧
    (sendData readyAlways 1 demoHandle 0xA7 idleWorld).world.gie = true ∧
    (idleWorld.gie = true →
      (sendData readyAlways 1 demoHandle 0xA7 idleWorld).world.gie = idleWorld.gie) :=
  ⟨rfl, sendData_returns_enabled readyAlways 1 demoHandle 0xA7 idleWorld _ rfl⟩

theorem u8_and_15 (x : Nat) : u8 x &&& 15 = x &&& 15 := by
  have h : u8 x = x &&& 255 := by
    have := Nat.and_pow_two_sub_one_eq_mod x 8
    simpa [u8] using this.symm
  rw [h, Nat.and_assoc]
  rfl

theorem low_nibble_or (A c : Nat) (hA : A &&& 15 = 0) (hc : c < 16) :
    u8 (A ||| c) &&& 15 = c := by
  rw [u8_and_15, Nat.and_distrib_right, hA, Nat.zero_or]
  exact Nat.and_pow_two_sub_one_of_lt_two_pow (n := 4) hc

theorem testBit_15 (i : Nat) : (15 : Nat).testBit i = decide (i < 4) :=
  Nat.testBit_two_pow_sub_one 4 i

theorem shiftLeft_and_15 (x k : Nat) (hk : 4 ≤ k) : (x <<< k) &&& 15 = 0 := by
  apply Nat.eq_of_testBit_eq
  intro i
  simp only [Nat.testBit_and, Nat.testBit_shiftLeft, testBit_15, Nat.zero_testBit]
  by_cases hi : i < 4
  · have : ¬ i ≥ k := by omega
    simp [this]
  · simp [hi]

theorem freq_field_and_15 (Y : Nat) : ((Y &&& 0x03C0) >>> 2) &&& 15 = 0 := by
  apply Nat.eq_of_testBit_eq
  intro i
  simp only [Nat.testBit_and, Nat.testBit_shiftRight, testBit_15, Nat.zero_testBit]
  by_cases hi : i < 4
  · have h960 : (0x03C0 : Nat).testBit (2 + i) = false := by
      interval_cases i <;> decide
    simp [h960]
  · simp [hi]

theorem freq_byte1_low (Y r : Nat) (hr : r < 8) :
    u8 (((Y &&& 0x03C0) >>> 2) ||| (r <<< 1) ||| 0x01) &&& 0xF = (r <<< 1) ||| 0x01 := by
  rw [Nat.or_assoc]
  apply low_nibble_or _ _ (freq_field_and_15 Y)
  interval_cases r <;> decide

theorem freq_byte2_bit0 (Y : Nat) :
    u8 (((Y &&& 0x001F) <<< 2) ||| 0x00) &&& 0x01 = 0 := by
  apply Nat.eq_of_testBit_eq
  intro i
  simp only [Nat.testBit_and, testBit_u8, Nat.testBit_or, Nat.testBit_shiftLeft,
    Nat.zero_testBit, Bool.or_false]
  by_cases hi : i = 0
  · subst hi; simp
  · have : (1 : Nat).testBit i = false := by
      apply Nat.testBit_lt_two_pow
      calc 1 < 2 ^ 1 := by decide
        _ ≤ 2 ^ i := Nat.pow_le_pow_right (by decide) (by omega)
    simp [this]

theorem noise_byte_low (T R : Nat) :
    u8 ((R <<< 6) ||| (T <<< 5) ||| (3 <<< 1) ||| 0x01) &&& 0xF = 0x7 := by
  rw [Nat.or_assoc]
  apply low_nibble_or _ _ _ (by decide)
  rw [Nat.and_distrib_right, shiftLeft_and_15 _ _ (by decide), shiftLeft_and_15 _ _ (by decide)]
  rfl

set_option maxRecDepth 100000 in
theorem attn_byte_fields :
    ∀ L, L < 256 → ∀ r, r < 8 →
      (u8 ((L <<< 4) ||| (r <<< 1) ||| 0x01) = ((L &&& 0x0F) <<< 4) ||| (r <<< 1) ||| 0x01 ∧
       (u8 ((L <<< 4) ||| (r <<< 1) ||| 0x01)) &&& 0xF = (r <<< 1) ||| 0x01 ∧
       ((u8 ((L <<< 4) ||| (r <<< 1) ||| 0x01)) >>> 1) &&& 0x7 = r ∧
       (u8 ((L <<< 4) ||| (r <<< 1) ||| 0x01)) &&& 0x01 = 1) := by
  decide

set_option maxRecDepth 100000 in
theorem noise_byte_fields :
    ∀ rate, rate < 256 → ∀ type, type < 2 →
      (u8 ((rate <<< 6) ||| (type <<< 5) ||| (3 <<< 1) ||| 0x01) &&& 0x3F =
          (type <<< 5) ||| (3 <<< 1) ||| 0x01 ∧
       u8 ((rate <<< 6) ||| (type <<< 5) ||| (3 <<< 1) ||| 0x01) >>> 6 = rate % 4) := by
  decide

theorem writesTo_isTransfer (p : s_sn76489) (d : Nat) (evs : List Event)
    (hports : p.p_dataPortW ≠ p.p_ctrlPortW) (h : isTransfer p d evs = true) :
    writesTo p.p_dataPortW evs = [d] := by
  unfold isTransfer at h
  split at h
  · simp only [Bool.and_eq_true, decide_eq_true_eq] at h
    obtain ⟨⟨⟨⟨⟨⟨⟨⟨⟨_, _⟩, h2⟩, h3⟩, hx⟩, h4⟩, _⟩, _⟩, h6⟩, h7⟩ := h
    subst h2 h3 hx h4 h6 h7
    simp [writesTo, hports.symm]
  · exact absurd h (by simp)

theorem noiseCtrl_transfer_any (env : Pins) (p : s_sn76489) (fuel type rate : Nat) (w : World)
    (h : ReadyHigh env p) :
    ∃ w' e, setSN76489noiseCtrl env (fuel + 1) p type rate w = Run.done w' ∧
      w'.trace = w.trace ++ e ∧
      isTransfer p (u8 ((u8 rate <<< 6) ||| (u8 type <<< 5) ||| (3 <<< 1) ||| 0x01)) e = true :=
  sendData_isTransfer env p fuel
    ((u8 rate <<< 6) ||| (u8 type <<< 5) ||| (NOISE_CTRL <<< 1) ||| FIRST_BYTE) w h

theorem attn_transfer_any (env : Pins) (p : s_sn76489) (fuel L r : Nat) (w : World)
    (h : ReadyHigh env p) :
    ∃ w' e,
      sendData env (fuel + 1) p ((u8 L <<< 4) ||| (r <<< 1) ||| FIRST_BYTE) w = Run.done w' ∧
      w'.trace = w.trace ++ e ∧
      isTransfer p (u8 ((u8 L <<< 4) ||| (r <<< 1) ||| 0x01)) e = true :=
  sendData_isTransfer env p fuel ((u8 L <<< 4) ||| (r <<< 1) ||| FIRST_BYTE) w h

/-- C12, refuted as stated: on the example handle, with ready reading high,
there is no 8-bit rate of 4 or more and no type in `0..1` for which bits 5:0
of the byte that `setSN76489noiseCtrl` writes to the data port differ from
`(type << 5) | (NOISE_CTRL << 1) | 0x01`. -/
theorem noise_rate_leaves_low_bits :
    ¬ ∃ rate type : Nat, 4 ≤ rate ∧ rate < 256 ∧ type ≤ 1 ∧
      ∃ b, writesTo demoHandle.p_dataPortW
          (setSN76489noiseCtrl readyAlways 1 demoHandle type rate idleWorld).world.trace = [b] ∧
        b &&& 0x3F ≠ (type <<< 5) ||| (NOISE_CTRL <<< 1) ||| 0x01 := by
  rintro ⟨rate, type, _, hr, ht, b, hb, hne⟩
  obtain ⟨w', e, hrun, htr, hi⟩ := noiseCtrl_transfer_any readyAlways demoHandle 0 type rate
    idleWorld (readyAlways_high demoHandle (by decide))
  have hw := writesTo_isTransfer demoHandle _ e (by decide) hi
  have hur : u8 rate = rate := Nat.mod_eq_of_lt hr
  have hut : u8 type = type := Nat.mod_eq_of_lt (by omega)
  have he : (setSN76489noiseCtrl readyAlways 1 demoHandle type rate idleWorld).world.trace = e := by
    rw [hrun]; simp [Run.world, htr, idleWorld]
  rw [he, hw, hur, hut] at hb
  have hb' := (List.cons.inj hb).1
  apply hne
  rw [← hb']
  exact (noise_byte_fields rate hr type (by omega)).1

/-- C12, amended: an out-of-range noise rate leaves the other command bits
alone.  For every 8-bit rate and every type in `0..1`, with ready reading
high, `setSN76489noiseCtrl` returns after exactly one transfer, of a byte whose
bits 5:0 are `(type << 5) | (NOISE_CTRL << 1) | 0x01` and whose bits 7:6 are
the rate modulo 4: the bits of the rate above its two low bits are cut off by
the 8-bit transfer argument. -/
theorem setSN76489noiseCtrl_rate_truncated (env : Pins) (p : s_sn76489) (fuel type rate : Nat)
    (w : World) (hready : ReadyHigh env p) (htype : type ≤ 1) (hrate : rate < 256) :
    ∃ w' e b, setSN76489noiseCtrl env (fuel + 1) p type rate w = Run.done w' ∧
      w'.trace = w.trace ++ e ∧ isTransfer p b e = true ∧
      b &&& 0x3F = (type <<< 5) ||| (3 <<< 1) ||| 0x01 ∧
      b >>> 6 = rate % 4 := by
  obtain ⟨w', e, hrun, htr, hi⟩ := noiseCtrl_transfer_any env p fuel type rate w hready
  have hur : u8 rate = rate := Nat.mod_eq_of_lt hrate
  have hut : u8 type = type := Nat.mod_eq_of_lt (by omega)
  rw [hur, hut] at hi
  obtain ⟨f1, f2⟩ := noise_byte_fields rate hrate type (by omega)
  exact ⟨w', e, _, hrun, htr, hi, f1, f2⟩

/-- Witness of the amended C12: the example handle, ready always high, type 1
and the out-of-range rate 6. -/
theorem setSN76489noiseCtrl_rate_truncated_witness :
    ReadyHigh readyAlways demoHandle ∧ 1 ≤ 1 ∧ 6 < 256 ∧
    ∃ w' e b, setSN76489noiseCtrl readyAlways (0 + 1) demoHandle 1 6 idleWorld = Run.done w' ∧
      w'.trace = idleWorld.trace ++ e ∧ isTransfer demoHandle b e = true ∧
      b &&& 0x3F = (1 <<< 5) ||| (3 <<< 1) ||| 0x01 ∧
      b >>> 6 = 6 % 4 :=
  ⟨readyAlways_high demoHandle (by decide), by decide, by decide,
    setSN76489noiseCtrl_rate_truncated readyAlways demoHandle 0 1 6 idleWorld
      (readyAlways_high demoHandle (by decide)) (by decide) (by decide)⟩

theorem releaseBus_load_other (p : s_sn76489) (w : World) (a : Nat) (h : a ≠ p.p_ctrlPortW) :
    load (releaseBus p w) a = load w a := by
  simp only [releaseBus, load_store_other _ _ _ _ h]

theorem assertBus_load_data (p : s_sn76489) (d : Nat) (w : World)
    (hports : p.p_dataPortW ≠ p.p_ctrlPortW) :
    load (assertBus p d w) p.p_dataPortW = u8 d := by
  simp only [assertBus, load_store_other _ _ _ _ hports, load_store_same]

theorem assertBus_load_other (p : s_sn76489) (d : Nat) (w : World) (a : Nat)
    (h1 : a ≠ p.p_ctrlPortW) (h2 : a ≠ p.p_dataPortW) :
    load (assertBus p d w) a = load w a := by
  simp only [assertBus, load_store_other _ _ _ _ h1, load_store_other _ _ _ _ h2]

theorem sendData_effect (env : Pins) (p : s_sn76489) (fuel data : Nat) (w : World)
    (h : ReadyHigh env p) :
    ∃ w' e, sendData env (fuel + 1) p data w = Run.done w' ∧ w'.trace = w.trace ++ e ∧
      isTransfer p (u8 data) e = true ∧
      (∃ x, load w' p.p_ctrlPortW = u8 (u8 (x ||| bit1 p.nCE) ||| bit1 p.nWE)) ∧
      (p.p_dataPortW ≠ p.p_ctrlPortW →
        load w' p.p_ctrlPortW =
          u8 (u8 (u8 (u8 (load w p.p_ctrlPortW &&& bnot (bit1 p.nCE)) &&& bnot (bit1 p.nWE)) |||
            bit1 p.nCE) ||| bit1 p.nWE) ∧
        load w' p.p_dataPortW = u8 data) := by
  have hs := sendData_readyHigh env p fuel data w h
  have h' : ∀ hist, (u8 (env hist p.p_ctrlPortR)).testBit p.ready = true := h
  exact ⟨_, _, hs,
    by simp only [ei_trace, store_trace, sampleCtrl_trace, di_trace, assertBus, releaseBus,
        List.append_assoc]; rfl,
    by simp [isTransfer, h'],
    ⟨load (sampleCtrl env p (assertBus p (u8 data) (sampleCtrl env p (di w)))) p.p_ctrlPortW,
      by rw [load_ei, releaseBus_load]⟩,
    fun hports =>
      ⟨by rw [load_ei, releaseBus_load, load_sampleCtrl, assertBus_load _ _ _ hports,
          load_sampleCtrl, load_di],
       by rw [load_ei, releaseBus_load_other _ _ _ hports, load_sampleCtrl,
          assertBus_load_data _ _ _ hports, u8_u8]⟩⟩

theorem ctrl_release_bits (x nCE nWE : Nat) (hce : nCE ≤ 7) (hwe : nWE ≤ 7) :
    (u8 (u8 (x ||| bit1 nCE) ||| bit1 nWE)).testBit nCE = true ∧
    (u8 (u8 (x ||| bit1 nCE) ||| bit1 nWE)).testBit nWE = true := by
  have h1 : nCE < 8 := by omega
  have h2 : nWE < 8 := by omega
  have h3 : nCE < 16 := by omega
  have h4 : nWE < 16 := by omega
  constructor
  · simp [testBit_u8, testBit_bit1, h1, h3]
  · simp [testBit_u8, testBit_bit1, h2, h4]

theorem testBit_load (w : World) (a i : Nat) :
    (load w a).testBit i = (decide (i < 8) && (load w a).testBit i) := by
  rw [← testBit_u8]; simp [load]

theorem ctrl_frame_bits (w : World) (a nCE nWE i : Nat) (h1 : i ≠ nCE) (h2 : i ≠ nWE) :
    (u8 (u8 (u8 (u8 (load w a &&& bnot (bit1 nCE)) &&& bnot (bit1 nWE)) ||| bit1 nCE) |||
      bit1 nWE)).testBit i = (load w a).testBit i := by
  simp only [testBit_u8, Nat.testBit_or, Nat.testBit_and, testBit_bit1, testBit_bnot]
  rw [testBit_load w a i]
  by_cases h8 : i < 8
  · have h16 : i < 16 := by omega
    simp [h8, h16, Ne.symm h1, Ne.symm h2]
  · simp [h8]

theorem testBit_255_eq (i : Nat) : (255 : Nat).testBit i = decide (i < 8) :=
  Nat.testBit_two_pow_sub_one 8 i

theorem ctrl_roundtrip_255 (nCE nWE : Nat) :
    u8 (u8 (u8 (u8 (255 &&& bnot (bit1 nCE)) &&& bnot (bit1 nWE)) ||| bit1 nCE) ||| bit1 nWE)
      = 255 := by
  apply Nat.eq_of_testBit_eq
  intro i
  simp only [testBit_u8, Nat.testBit_or, Nat.testBit_and, testBit_bit1, testBit_bnot,
    testBit_255_eq]
  by_cases h8 : i < 8
  · have h16 : i < 16 := by omega
    by_cases hc : nCE = i <;> by_cases hw : nWE = i <;> simp [h8, h16, hc, hw]
  · simp [h8]

theorem sendData_keeps_255 (env : Pins) (p : s_sn76489) (fuel data : Nat) (w : World)
    (h : ReadyHigh env p) (hports : p.p_dataPortW ≠ p.p_ctrlPortW)
    (hidle : load w p.p_ctrlPortW = 0xFF) :
    ∃ w' e, sendData env (fuel + 1) p data w = Run.done w' ∧ w'.trace = w.trace ++ e ∧
      isTransfer p (u8 data) e = true ∧ load w' p.p_ctrlPortW = 0xFF := by
  obtain ⟨w', e, hrun, htr, hi, _, hl⟩ := sendData_effect env p fuel data w h
  refine ⟨w', e, hrun, htr, hi, ?_⟩
  rw [(hl hports).1, hidle]
  exact ctrl_roundtrip_255 _ _

/-- C13: for a non-null handle and three non-null ports, the data-write port
and the control-write port being two different registers, and ready reading
high, `initSN76489` returns; the handle then holds the three given port
references (its pin fields untouched); the first two events are the write of
`0` to the data-write port and the write of `0xFF` to the control-write port,
and only then do the four transfers follow; and on return the control-write
port reads `0xFF` again. -/
theorem initSN76489_binds_and_idles (env : Pins) (fuel : Nat) (s : s_sn76489) (a b c : Nat)
    (w : World) (ha : a ≠ 0) (hb : b ≠ 0) (hc : c ≠ 0) (hports : a ≠ c)
    (hready : ReadyHigh env { s with p_dataPortW := a, p_ctrlPortR := b, p_ctrlPortW := c }) :
    ∃ s' w' e1 e2 e3 e4,
      initSN76489 env (fuel + 1) (some s) a b c w = (some s', Run.done w') ∧
      s'.p_dataPortW = a ∧ s'.p_ctrlPortR = b ∧ s'.p_ctrlPortW = c ∧
      s'.nWE = s.nWE ∧ s'.nCE = s.nCE ∧ s'.ready = s.ready ∧
      w'.trace = w.trace ++ [Event.wr a 0, Event.wr c 0xFF] ++ e1 ++ e2 ++ e3 ++ e4 ∧
      isTransfer s' 0xF1 e1 = true ∧ isTransfer s' 0xF1 e2 = true ∧
      isTransfer s' 0xF1 e3 = true ∧ isTransfer s' 0xF1 e4 = true ∧
      load w' c = 0xFF := by
  have h0 : load (store (store w a 0) c (bnot 0)) c = 0xFF := by
    rw [load_store_same]; decide
  obtain ⟨w1, e1, hs1, ht1, hi1, hl1⟩ := sendData_keeps_255 env
    { s with p_dataPortW := a, p_ctrlPortR := b, p_ctrlPortW := c } fuel
    ((VOICE1_ATTN <<< REG_SHIFT) ||| 0xF0 ||| FIRST_BYTE) (store (store w a 0) c (bnot 0))
    hready hports h0
  obtain ⟨w2, e2, hs2, ht2, hi2, hl2⟩ := sendData_keeps_255 env
    { s with p_dataPortW := a, p_ctrlPortR := b, p_ctrlPortW := c } fuel
    ((VOICE2_ATTN <<< REG_SHIFT) ||| 0xF0 ||| FIRST_BYTE) w1 hready hports hl1
  obtain ⟨w3, e3, hs3, ht3, hi3, hl3⟩ := sendData_keeps_255 env
    { s with p_dataPortW := a, p_ctrlPortR := b, p_ctrlPortW := c } fuel
    ((VOICE3_ATTN <<< REG_SHIFT) ||| 0xF0 ||| FIRST_BYTE) w2 hready hports hl2
  obtain ⟨w4, e4, hs4, ht4, hi4, hl4⟩ := sendData_keeps_255 env
    { s with p_dataPortW := a, p_ctrlPortR := b, p_ctrlPortW := c } fuel
    ((NOISE_ATTN <<< REG_SHIFT) ||| 0xF0 ||| FIRST_BYTE) w3 hready hports hl3
  refine ⟨{ s with p_dataPortW := a, p_ctrlPortR := b, p_ctrlPortW := c }, w4, e1, e2, e3, e4,
    ?_, rfl, rfl, rfl, rfl, rfl, rfl, ?_, hi1, hi2, hi3, hi4, hl4⟩
  · simp only [initSN76489, if_neg ha, if_neg hb, if_neg hc, hs1, hs2, hs3, hs4, Run.bind]
  · rw [ht4, ht3, ht2, ht1]
    simp only [store_trace, List.append_assoc]
    rfl

/-- Witness of C13: the example handle bound to the ports at addresses 10, 11
and 12, ready always high. -/
theorem initSN76489_binds_and_idles_witness :
    (10 : Nat) ≠ 0 ∧ (11 : Nat) ≠ 0 ∧ (12 : Nat) ≠ 0 ∧ (10 : Nat) ≠ 12 ∧
    ReadyHigh readyAlways
      { demoHandle with p_dataPortW := 10, p_ctrlPortR := 11, p_ctrlPortW := 12 } ∧
    ∃ s' w' e1 e2 e3 e4,
      initSN76489 readyAlways (0 + 1) (some demoHandle) 10 11 12 idleWorld =
        (some s', Run.done w') ∧
      s'.p_dataPortW = 10 ∧ s'.p_ctrlPortR = 11 ∧ s'.p_ctrlPortW = 12 ∧
      s'.nWE = demoHandle.nWE ∧ s'.nCE = demoHandle.nCE ∧ s'.ready = demoHandle.ready ∧
      w'.trace = idleWorld.trace ++ [Event.wr 10 0, Event.wr 12 0xFF] ++ e1 ++ e2 ++ e3 ++ e4 ∧
      isTransfer s' 0xF1 e1 = true ∧ isTransfer s' 0xF1 e2 = true ∧
      isTransfer s' 0xF1 e3 = true ∧ isTransfer s' 0xF1 e4 = true ∧
      load w' 12 = 0xFF :=
  ⟨by decide, by decide, by decide, by decide, readyAlways_high _ (by decide),
    initSN76489_binds_and_idles readyAlways 0 demoHandle 10 11 12 idleWorld (by decide)
      (by decide) (by decide) (by decide) (readyAlways_high _ (by decide))⟩

theorem getSN76489_FreqDiv_eq (R s : Nat) (hR : R < 2 ^ 32) (hs : s ≤ 7) :
    getSN76489_FreqDiv R s = some ((R / (5 <<< s)) &&& 0x3FF) := by
  have hle : (R / (5 <<< s)) &&& 0x3FF ≤ 0x3FF := Nat.and_le_right
  have huR : u32 R = R := Nat.mod_eq_of_lt hR
  have hus : u32 s = s := Nat.mod_eq_of_lt (by omega)
  have hsh : 5 <<< s < 2 ^ 15 := by
    have : s < 8 := by omega
    interval_cases s <;> decide
  have hlt : s < 16 := by omega
  simp only [getSN76489_FreqDiv, huR, hus, INT_BITS]
  rw [if_pos ⟨hlt, hsh⟩, u16, Nat.mod_eq_of_lt (by omega)]

/-- C14: the divisor is the reference clock divided by 5 and then by a power
of two.  For every 32-bit `R` and every `s` in `0..7`,
`getSN76489_FreqDiv R s` is `((R / 5) >> s) & 0x3FF`; and whenever
`R / (5 * 2 ^ s)` is below 1024 it is exactly that quotient. -/
theorem getSN76489_FreqDiv_div5_shift (R s : Nat) (hR : R < 2 ^ 32) (hs : s ≤ 7) :
    getSN76489_FreqDiv R s = some (((R / 5) >>> s) &&& 0x3FF) ∧
    (R / (5 * 2 ^ s) < 1024 → getSN76489_FreqDiv R s = some (R / (5 * 2 ^ s))) := by
  have h1 : 5 <<< s = 5 * 2 ^ s := Nat.shiftLeft_eq 5 s
  have h2 : (R / 5) >>> s = R / (5 * 2 ^ s) := by
    rw [Nat.shiftRight_eq_div_pow, Nat.div_div_eq_div_mul]
  have h3 := getSN76489_FreqDiv_eq R s hR hs
  rw [h1] at h3
  refine ⟨by rw [h2]; exact h3, fun hlt => ?_⟩
  rw [h3]
  have h4 : R / (5 * 2 ^ s) &&& 0x3FF = R / (5 * 2 ^ s) :=
    Nat.and_pow_two_sub_one_of_lt_two_pow (n := 10) hlt
  rw [h4]

/-- Witness of C14: a 500 kHz reference clock with shift 7; the quotient 781
is below 1024 and is the result. -/
theorem getSN76489_FreqDiv_div5_shift_witness :
    500000 < 2 ^ 32 ∧ 7 ≤ 7 ∧
    getSN76489_FreqDiv 500000 7 = some (((500000 / 5) >>> 7) &&& 0x3FF) ∧
    500000 / (5 * 2 ^ 7) < 1024 ∧
    getSN76489_FreqDiv 500000 7 = some (500000 / (5 * 2 ^ 7)) :=
  ⟨by decide, by decide,
    (getSN76489_FreqDiv_div5_shift 500000 7 (by decide) (by decide)).1, by decide,
    (getSN76489_FreqDiv_div5_shift 500000 7 (by decide) (by decide)).2 (by decide)⟩

theorem sendData_idle (env : Pins) (p : s_sn76489) (fuel data : Nat) (w : World)
    (h : ReadyHigh env p) (hce : p.nCE ≤ 7) (hwe : p.nWE ≤ 7) :
    ∃ w', sendData env (fuel + 1) p data w = Run.done w' ∧ Idle p w' := by
  obtain ⟨w', _, hrun, _, _, ⟨x, hx⟩, _⟩ := sendData_effect env p fuel data w h
  refine ⟨w', hrun, ?_⟩
  unfold Idle
  rw [hx]
  exact ctrl_release_bits x p.nCE p.nWE hce hwe

theorem sendData_twice_idle (env : Pins) (p : s_sn76489) (fuel d1 d2 : Nat) (w : World)
    (h : ReadyHigh env p) (hce : p.nCE ≤ 7) (hwe : p.nWE ≤ 7) :
    ∃ w', (sendData env (fuel + 1) p d1 w).bind (sendData env (fuel + 1) p d2) = Run.done w' ∧
      Idle p w' := by
  obtain ⟨w1, hrun1, _⟩ := sendData_idle env p fuel d1 w h hce hwe
  obtain ⟨w2, hrun2, hidle⟩ := sendData_idle env p fuel d2 w1 h hce hwe
  exact ⟨w2, by rw [hrun1]; exact hrun2, hidle⟩

/-- C15 (idle state and frame of a transfer): for chip-enable and write-enable
pins in `0..7`, the data-write port and the control-write port being two
different registers, and ready reading high, `sendData` returns with the
chip-enable and write-enable bits of the control-write port both 1, every
other bit of that port as before the call, and the data-write port holding
exactly the data byte.  Consequently each of the eight public setters, for
any arguments, returns with both control lines idle (high), whether or not
they were idle at the start. -/
theorem sendData_idle_frame (env : Pins) (p : s_sn76489) (fuel d D L type rate : Nat)
    (w : World) (hready : ReadyHigh env p) (hd : d < 256) (hce : p.nCE ≤ 7) (hwe : p.nWE ≤ 7)
    (hports : p.p_dataPortW ≠ p.p_ctrlPortW) :
    (∃ w', sendData env (fuel + 1) p d w = Run.done w' ∧
      (load w' p.p_ctrlPortW).testBit p.nCE = true ∧
      (load w' p.p_ctrlPortW).testBit p.nWE = true ∧
      (∀ i, i ≠ p.nCE → i ≠ p.nWE →
        (load w' p.p_ctrlPortW).testBit i = (load w p.p_ctrlPortW).testBit i) ∧
      load w' p.p_dataPortW = d) ∧
    (∃ w', setSN76489voice1_freq env (fuel + 1) p D w = Run.done w' ∧ Idle p w') ∧
    (∃ w', setSN76489voice2_freq env (fuel + 1) p D w = Run.done w' ∧ Idle p w') ∧
    (∃ w', setSN76489voice3_freq env (fuel + 1) p D w = Run.done w' ∧ Idle p w') ∧
    (∃ w', setSN76489voice1_attn env (fuel + 1) p L w = Run.done w' ∧ Idle p w') ∧
    (∃ w', setSN76489voice2_attn env (fuel + 1) p L w = Run.done w' ∧ Idle p w') ∧
    (∃ w', setSN76489voice3_attn env (fuel + 1) p L w = Run.done w' ∧ Idle p w') ∧
    (∃ w', setSN76489noise_attn env (fuel + 1) p L w = Run.done w' ∧ Idle p w') ∧
    (∃ w', setSN76489noiseCtrl env (fuel + 1) p type rate w = Run.done w' ∧ Idle p w') := by
  refine ⟨?_, sendData_twice_idle env p fuel _ _ w hready hce hwe,
    sendData_twice_idle env p fuel _ _ w hready hce hwe,
    sendData_twice_idle env p fuel _ _ w hready hce hwe,
    sendData_idle env p fuel _ w hready hce hwe, sendData_idle env p fuel _ w hready hce hwe,
    sendData_idle env p fuel _ w hready hce hwe, sendData_idle env p fuel _ w hready hce hwe,
    sendData_idle env p fuel _ w hready hce hwe⟩
  obtain ⟨w', _, hrun, _, _, ⟨x, hx⟩, hl⟩ := sendData_effect env p fuel d w hready
  obtain ⟨hl1, hl2⟩ := hl hports
  have hrel := ctrl_release_bits x p.nCE p.nWE hce hwe
  refine ⟨w', hrun, by rw [hx]; exact hrel.1, by rw [hx]; exact hrel.2, ?_, ?_⟩
  · intro i h1 h2
    rw [hl1]
    exact ctrl_frame_bits w p.p_ctrlPortW p.nCE p.nWE i h1 h2
  · rw [hl2]
    exact Nat.mod_eq_of_lt hd

/-- Witness of C15: the example handle, ready always high, data byte `0xA7`;
the first part of the statement. -/
theorem sendData_idle_frame_witness :
    ReadyHigh readyAlways demoHandle ∧ 0xA7 < 256 ∧ demoHandle.nCE ≤ 7 ∧ demoHandle.nWE ≤ 7 ∧
    demoHandle.p_dataPortW ≠ demoHandle.p_ctrlPortW ∧
    ∃ w', sendData readyAlways (0 + 1) demoHandle 0xA7 idleWorld = Run.done w' ∧
      (load w' demoHandle.p_ctrlPortW).testBit demoHandle.nCE = true ∧
      (load w' demoHandle.p_ctrlPortW).testBit demoHandle.nWE = true ∧
      (∀ i, i ≠ demoHandle.nCE → i ≠ demoHandle.nWE →
        (load w' demoHandle.p_ctrlPortW).testBit i =
          (load idleWorld demoHandle.p_ctrlPortW).testBit i) ∧
      load w' demoHandle.p_dataPortW = 0xA7 :=
  ⟨readyAlways_high demoHandle (by decide), by decide, by decide, by decide, by decide,
    (sendData_idle_frame readyAlways demoHandle 0 0xA7 0x155 0xF 1 2 idleWorld
      (readyAlways_high demoHandle (by decide)) (by decide) (by decide) (by decide)
      (by decide)).1⟩

theorem pollReady_readyLow (env : Pins) (p : s_sn76489) (h : ReadyLow env p) :
    ∀ (n : Nat) (w : World), ∃ samples,
      pollReady env p n w = Run.spin { w with trace := w.trace ++ samples } ∧
      samples.length = n ∧
      ∀ e ∈ samples, ∃ v, e = Event.rd p.p_ctrlPortR v ∧ v.testBit p.ready = false := by
  intro n
  induction n with
  | zero =>
    intro w
    exact ⟨[], by simp [pollReady], rfl, by simp⟩
  | succ n ih =>
    intro w
    obtain ⟨samples, hrun, hlen, hall⟩ := ih (sampleCtrl env p w)
    refine ⟨Event.rd p.p_ctrlPortR (u8 (env w.trace p.p_ctrlPortR)) :: samples, ?_, ?_, ?_⟩
    · rw [pollReady_low _ _ _ _ (h w.trace), hrun]
      simp [sampleCtrl]
    · simp [hlen]
    · intro e he
      rcases List.mem_cons.mp he with rfl | he'
      · exact ⟨_, rfl, h w.trace⟩
      · exact hall e he'

theorem readyNever_low (p : s_sn76489) : ReadyLow readyNever p := by
  intro hist
  have e : u8 (readyNever hist p.p_ctrlPortR) = 0 := rfl
  rw [e]
  exact Nat.zero_testBit _

theorem writesTo_append (a : Nat) (l1 l2 : List Event) :
    writesTo a (l1 ++ l2) = writesTo a l1 ++ writesTo a l2 := by
  induction l1 with
  | nil => rfl
  | cons e es ih =>
    cases e with
    | di => simpa [writesTo] using ih
    | ei => simpa [writesTo] using ih
    | rd b v => simpa [writesTo] using ih
    | wr b v =>
      by_cases hb : b = a
      · simp [writesTo, hb, ih]
      · simp [writesTo, hb, ih]

theorem writesTo_samples (a r k : Nat) (l : List Event)
    (h : ∀ e ∈ l, ∃ v, e = Event.rd r v ∧ v.testBit k = false) : writesTo a l = [] := by
  induction l with
  | nil => rfl
  | cons e es ih =>
    obtain ⟨v, rfl, _⟩ := h e (List.mem_cons_self _ _)
    simp only [writesTo]
    exact ih (fun e he => h e (List.mem_cons_of_mem _ he))

/-- C16 (unbounded poll): if the ready bit reads low on every sample, then for
every bound `n` on the number of samples `sendData` has not returned; what has
happened by then is the disabling of interrupts followed by `n` samples of the
control-read port, each with the ready bit low: interrupts are disabled, no
register has been written.  Conversely, if ready reads high on every sample,
the transfer returns (for every bound of at least one sample). -/
theorem sendData_unbounded_poll (envLow envHigh : Pins) (p : s_sn76489) (data : Nat)
    (w : World) (hlow : ReadyLow envLow p) (hhigh : ReadyHigh envHigh p) :
    (∀ n, ∃ w' samples, sendData envLow n p data w = Run.spin w' ∧
      w'.trace = w.trace ++ Event.di :: samples ∧ samples.length = n ∧
      (∀ e ∈ samples, ∃ v, e = Event.rd p.p_ctrlPortR v ∧ v.testBit p.ready = false) ∧
      w'.gie = false ∧ w'.mem = w.mem ∧
      (∀ a, writesTo a w'.trace = writesTo a w.trace)) ∧
    (∀ n, (sendData envHigh (n + 1) p data w).returned = true) := by
  constructor
  · intro n
    obtain ⟨samples, hrun, hlen, hall⟩ := pollReady_readyLow envLow p hlow n (di w)
    refine ⟨{ di w with trace := (di w).trace ++ samples }, samples, ?_, ?_, hlen, hall, rfl,
      rfl, ?_⟩
    · simp only [sendData, hrun, Run.bind]
    · simp [di]
    · intro a
      simp only [di_trace, List.append_assoc, writesTo_append, writesTo_samples a _ _ samples hall]
      simp [writesTo]
  · intro n
    rw [sendData_readyHigh envHigh p n data w hhigh]
    rfl

/-- Witness of C16: the example handle, with ready never high and with ready
always high. -/
theorem sendData_unbounded_poll_witness :
    ReadyLow readyNever demoHandle ∧ ReadyHigh readyAlways demoHandle ∧
    (∀ n, ∃ w' samples, sendData readyNever n demoHandle 0xA7 idleWorld = Run.spin w' ∧
      w'.trace = idleWorld.trace ++ Event.di :: samples ∧ samples.length = n ∧
      (∀ e ∈ samples, ∃ v, e = Event.rd demoHandle.p_ctrlPortR v ∧
        v.testBit demoHandle.ready = false) ∧
      w'.gie = false ∧ w'.mem = idleWorld.mem ∧
      (∀ a, writesTo a w'.trace = writesTo a idleWorld.trace)) ∧
    (∀ n, (sendData readyAlways (n + 1) demoHandle 0xA7 idleWorld).returned = true) :=
  ⟨readyNever_low demoHandle, readyAlways_high demoHandle (by decide),
    sendData_unbounded_poll readyNever readyAlways demoHandle 0xA7 idleWorld
      (readyNever_low demoHandle) (readyAlways_high demoHandle (by decide))⟩

/-- C17: an out-of-range noise type corrupts the rate field.  With ready
reading high, type 2 (outside `0..1`) with rate 0 makes
`setSN76489noiseCtrl` send one byte whose bits 7:6 are not the rate 0, and it
is the very byte, `0x47`, that type 0 with rate 1 sends. -/
theorem setSN76489noiseCtrl_type_corrupts_rate (env : Pins) (p : s_sn76489) (fuel : Nat)
    (w : World) (hready : ReadyHigh env p) :
    ∃ type rate : Nat, 1 < type ∧ type < 256 ∧ rate ≤ 3 ∧ type = 2 ∧ rate = 0 ∧
      ∃ w' e b, setSN76489noiseCtrl env (fuel + 1) p type rate w = Run.done w' ∧
        w'.trace = w.trace ++ e ∧ isTransfer p b e = true ∧
        b >>> 6 ≠ rate ∧ b = 0x47 ∧
        ∃ w'' e', setSN76489noiseCtrl env (fuel + 1) p 0 1 w = Run.done w'' ∧
          w''.trace = w.trace ++ e' ∧ isTransfer p b e' = true := by
  obtain ⟨w1, e1, hrun1, htr1, hi1⟩ := noiseCtrl_transfer_any env p fuel 2 0 w hready
  obtain ⟨w2, e2, hrun2, htr2, hi2⟩ := noiseCtrl_transfer_any env p fuel 0 1 w hready
  exact ⟨2, 0, by decide, by decide, by decide, rfl, rfl, w1, e1, 0x47, hrun1, htr1, hi1,
    by decide, rfl, w2, e2, hrun2, htr2, hi2⟩

/-- Witness of C17: the example handle, ready always high. -/
theorem setSN76489noiseCtrl_type_corrupts_rate_witness :
    ReadyHigh readyAlways demoHandle ∧
    ∃ type rate : Nat, 1 < type ∧ type < 256 ∧ rate ≤ 3 ∧ type = 2 ∧ rate = 0 ∧
      ∃ w' e b, setSN76489noiseCtrl readyAlways (0 + 1) demoHandle type rate idleWorld =
          Run.done w' ∧
        w'.trace = idleWorld.trace ++ e ∧ isTransfer demoHandle b e = true ∧
        b >>> 6 ≠ rate ∧ b = 0x47 ∧
        ∃ w'' e', setSN76489noiseCtrl readyAlways (0 + 1) demoHandle 0 1 idleWorld =
            Run.done w'' ∧
          w''.trace = idleWorld.trace ++ e' ∧ isTransfer demoHandle b e' = true :=
  ⟨readyAlways_high demoHandle (by decide),
    setSN76489noiseCtrl_type_corrupts_rate readyAlways demoHandle 0 idleWorld
      (readyAlways_high demoHandle (by decide))⟩

set_option maxRecDepth 100000 in
theorem checkRate_table :
    ∀ r, r < 256 →
      ((r ≤ 3 → checkRate r = r) ∧ (3 < r → checkRate r = 0) ∧ checkRate r ≤ 3 ∧
        checkRate (checkRate r) = checkRate r) := by
  decide

/-- C20: `checkRate` returns its argument unchanged for every rate in `0..3`
and returns 0 for every other 8-bit value; so its result is always in `0..3`
and `checkRate (checkRate r) = checkRate r`. -/
theorem checkRate_spec (r : Nat) (hr : r < 256) :
    (r ≤ 3 → checkRate r = r) ∧ (3 < r → checkRate r = 0) ∧ checkRate r ≤ 3 ∧
      checkRate (checkRate r) = checkRate r :=
  checkRate_table r hr

/-- Witness of C20: the out-of-range rate 200. -/
theorem checkRate_spec_witness :
    200 < 256 ∧ (200 ≤ 3 → checkRate 200 = 200) ∧ (3 < 200 → checkRate 200 = 0) ∧
      checkRate 200 ≤ 3 ∧ checkRate (checkRate 200) = checkRate 200 :=
  ⟨by decide, checkRate_spec 200 (by decide)⟩

theorem u8_lt (x : Nat) : u8 x < 256 := by
  simp only [u8]; omega

theorem voice_freq_low_nibble (env : Pins) (p : s_sn76489) (fuel D r : Nat) (w : World)
    (h : ReadyHigh env p) (hr : r < 8) :
    ∃ w' e1 e2 b1 b2,
      (sendData env (fuel + 1) p (((u16 D &&& 0x03C0) >>> 2) ||| (r <<< 1) ||| FIRST_BYTE) w).bind
          (sendData env (fuel + 1) p (((u16 D &&& 0x001F) <<< 2) ||| SECOND_BYTE)) = Run.done w' ∧
      w'.trace = w.trace ++ e1 ++ e2 ∧
      isTransfer p b1 e1 = true ∧ isTransfer p b2 e2 = true ∧
      b1 &&& 0xF = (r <<< 1) ||| 0x01 ∧ b2 &&& 0x01 = 0 := by
  obtain ⟨w1, e1, hs1, ht1, hi1⟩ := sendData_isTransfer env p fuel
    (((u16 D &&& 0x03C0) >>> 2) ||| (r <<< 1) ||| FIRST_BYTE) w h
  obtain ⟨w2, e2, hs2, ht2, hi2⟩ := sendData_isTransfer env p fuel
    (((u16 D &&& 0x001F) <<< 2) ||| SECOND_BYTE) w1 h
  exact ⟨w2, e1, e2, _, _, by rw [hs1]; exact hs2, by rw [ht2, ht1], hi1, hi2,
    freq_byte1_low (u16 D) r hr, freq_byte2_bit0 (u16 D)⟩

theorem attn_low_nibble (env : Pins) (p : s_sn76489) (fuel L r : Nat) (w : World)
    (h : ReadyHigh env p) (hr : r < 8) :
    ∃ w' e b,
      sendData env (fuel + 1) p ((u8 L <<< 4) ||| (r <<< 1) ||| FIRST_BYTE) w = Run.done w' ∧
      w'.trace = w.trace ++ e ∧ isTransfer p b e = true ∧
      b &&& 0xF = (r <<< 1) ||| 0x01 := by
  obtain ⟨w', e, hrun, htr, hi⟩ := attn_transfer_any env p fuel L r w h
  exact ⟨w', e, _, hrun, htr, hi, (attn_byte_fields (u8 L) (u8_lt L) r hr).2.1⟩

/-- C18 (register identification): for all argument values, with ready
reading high, the low nibble of the first (or only) byte each of the eight
setters sends is a constant of the setter: `0x1` voice-1 frequency, `0x5`
voice-2 frequency, `0x3` voice-3 frequency, `0x7` noise control, `0x9` voice-1
attenuation, `0xD` voice-2 attenuation, `0xB` voice-3 attenuation, `0xF`
noise attenuation.  These eight values are pairwise distinct and all have
bit 0 set, while the second byte of every frequency write has bit 0 clear. -/
theorem setter_low_nibble (env : Pins) (p : s_sn76489) (fuel D L type rate : Nat) (w : World)
    (hready : ReadyHigh env p) :
    (∃ w' e1 e2 b1 b2, setSN76489voice1_freq env (fuel + 1) p D w = Run.done w' ∧
        w'.trace = w.trace ++ e1 ++ e2 ∧
        isTransfer p b1 e1 = true ∧ isTransfer p b2 e2 = true ∧
        b1 &&& 0xF = 0x1 ∧ b2 &&& 0x01 = 0) ∧
    (∃ w' e1 e2 b1 b2, setSN76489voice2_freq env (fuel + 1) p D w = Run.done w' ∧
        w'.trace = w.trace ++ e1 ++ e2 ∧
        isTransfer p b1 e1 = true ∧ isTransfer p b2 e2 = true ∧
        b1 &&& 0xF = 0x5 ∧ b2 &&& 0x01 = 0) ∧
    (∃ w' e1 e2 b1 b2, setSN76489voice3_freq env (fuel + 1) p D w = Run.done w' ∧
        w'.trace = w.trace ++ e1 ++ e2 ∧
        isTransfer p b1 e1 = true ∧ isTransfer p b2 e2 = true ∧
        b1 &&& 0xF = 0x3 ∧ b2 &&& 0x01 = 0) ∧
    (∃ w' e b, setSN76489noiseCtrl env (fuel + 1) p type rate w = Run.done w' ∧
        w'.trace = w.trace ++ e ∧ isTransfer p b e = true ∧ b &&& 0xF = 0x7) ∧
    (∃ w' e b, setSN76489voice1_attn env (fuel + 1) p L w = Run.done w' ∧
        w'.trace = w.trace ++ e ∧ isTransfer p b e = true ∧ b &&& 0xF = 0x9) ∧
    (∃ w' e b, setSN76489voice2_attn env (fuel + 1) p L w = Run.done w' ∧
        w'.trace = w.trace ++ e ∧ isTransfer p b e = true ∧ b &&& 0xF = 0xD) ∧
    (∃ w' e b, setSN76489voice3_attn env (fuel + 1) p L w = Run.done w' ∧
        w'.trace = w.trace ++ e ∧ isTransfer p b e = true ∧ b &&& 0xF = 0xB) ∧
    (∃ w' e b, setSN76489noise_attn env (fuel + 1) p L w = Run.done w' ∧
        w'.trace = w.trace ++ e ∧ isTransfer p b e = true ∧ b &&& 0xF = 0xF) ∧
    [0x1, 0x5, 0x3, 0x7, 0x9, 0xD, 0xB, 0xF].Nodup ∧
    (∀ c ∈ [0x1, 0x5, 0x3, 0x7, 0x9, 0xD, 0xB, 0xF], c &&& 0x01 = 1) := by
  refine ⟨voice_freq_low_nibble env p fuel D VOICE1_FREQ w hready (by decide),
    voice_freq_low_nibble env p fuel D VOICE2_FREQ w hready (by decide),
    voice_freq_low_nibble env p fuel D VOICE3_FREQ w hready (by decide), ?_,
    attn_low_nibble env p fuel L VOICE1_ATTN w hready (by decide),
    attn_low_nibble env p fuel L VOICE2_ATTN w hready (by decide),
    attn_low_nibble env p fuel L VOICE3_ATTN w hready (by decide),
    attn_low_nibble env p fuel L NOISE_ATTN w hready (by decide), by decide, by decide⟩
  obtain ⟨w', e, hrun, htr, hi⟩ := noiseCtrl_transfer_any env p fuel type rate w hready
  exact ⟨w', e, _, hrun, htr, hi, noise_byte_low (u8 type) (u8 rate)⟩

/-- Witness of C18: the example handle, ready always high, and out-of-range
arguments: divisor `0xFFFF`, attenuation `0xAB`, noise type 7 and rate 9; the
voice-1 frequency part of the statement. -/
theorem setter_low_nibble_witness :
    ReadyHigh readyAlways demoHandle ∧
    ∃ w' e1 e2 b1 b2, setSN76489voice1_freq readyAlways (0 + 1) demoHandle 0xFFFF idleWorld =
        Run.done w' ∧
      w'.trace = idleWorld.trace ++ e1 ++ e2 ∧
      isTransfer demoHandle b1 e1 = true ∧ isTransfer demoHandle b2 e2 = true ∧
      b1 &&& 0xF = 0x1 ∧ b2 &&& 0x01 = 0 :=
  ⟨readyAlways_high demoHandle (by decide),
    (setter_low_nibble readyAlways demoHandle 0 0xFFFF 0xAB 7 9 idleWorld
      (readyAlways_high demoHandle (by decide))).1⟩

theorem attn_truncated (env : Pins) (p : s_sn76489) (fuel L r : Nat) (w : World)
    (h : ReadyHigh env p) (hL : L < 256) (hr : r < 8) :
    ∃ b,
      (∃ w' e, sendData env (fuel + 1) p ((u8 L <<< 4) ||| (r <<< 1) ||| FIRST_BYTE) w =
          Run.done w' ∧ w'.trace = w.trace ++ e ∧ isTransfer p b e = true) ∧
      (∃ w' e, sendData env (fuel + 1) p ((u8 (L &&& 0x0F) <<< 4) ||| (r <<< 1) ||| FIRST_BYTE) w =
          Run.done w' ∧ w'.trace = w.trace ++ e ∧ isTransfer p b e = true) ∧
      b = ((L &&& 0x0F) <<< 4) ||| (r <<< 1) ||| 0x01 ∧
      (b >>> 1) &&& 0x7 = r ∧ b &&& 0x01 = 1 := by
  obtain ⟨w1, e1, hrun1, htr1, hi1⟩ := attn_transfer_any env p fuel L r w h
  obtain ⟨w2, e2, hrun2, htr2, hi2⟩ := attn_transfer_any env p fuel (L &&& 0x0F) r w h
  have hL' : L &&& 0x0F < 256 := Nat.lt_of_le_of_lt Nat.and_le_right (by decide)
  have hu : u8 L = L := Nat.mod_eq_of_lt hL
  have hu' : u8 (L &&& 0x0F) = L &&& 0x0F := Nat.mod_eq_of_lt hL'
  have hidem : (L &&& 0x0F) &&& 0x0F = L &&& 0x0F := by
    rw [Nat.and_assoc]; rfl
  obtain ⟨f1, _, f3, f4⟩ := attn_byte_fields L hL r hr
  obtain ⟨g1, _, _, _⟩ := attn_byte_fields (L &&& 0x0F) hL' r hr
  rw [hu, f1] at hi1
  rw [hu', g1, hidem] at hi2
  rw [f1] at f3 f4
  exact ⟨_, ⟨w1, e1, hrun1, htr1, hi1⟩, ⟨w2, e2, hrun2, htr2, hi2⟩, rfl, f3, f4⟩

/-- C19 (attenuation truncation): for every 8-bit attenuation value `L`, also
above `0xF`, with ready reading high, each attenuation setter sends exactly
the byte it sends for `L & 0x0F`, namely `((L & 0x0F) << 4) | (regCode << 1) |
0x01`: the bits of `L` above its low nibble are cut off by the 8-bit transfer
argument, and bits 3:1 (the register code) and bit 0 (the marker) of the byte
do not depend on `L`. -/
theorem setSN76489_attn_truncated (env : Pins) (p : s_sn76489) (fuel L : Nat) (w : World)
    (hready : ReadyHigh env p) (hL : L < 256) :
    (∃ b,
      (∃ w' e, setSN76489voice1_attn env (fuel + 1) p L w = Run.done w' ∧
        w'.trace = w.trace ++ e ∧ isTransfer p b e = true) ∧
      (∃ w' e, setSN76489voice1_attn env (fuel + 1) p (L &&& 0x0F) w = Run.done w' ∧
        w'.trace = w.trace ++ e ∧ isTransfer p b e = true) ∧
      b = ((L &&& 0x0F) <<< 4) ||| (4 <<< 1) ||| 0x01 ∧
      (b >>> 1) &&& 0x7 = 4 ∧ b &&& 0x01 = 1) ∧
    (∃ b,
      (∃ w' e, setSN76489voice2_attn env (fuel + 1) p L w = Run.done w' ∧
        w'.trace = w.trace ++ e ∧ isTransfer p b e = true) ∧
      (∃ w' e, setSN76489voice2_attn env (fuel + 1) p (L &&& 0x0F) w = Run.done w' ∧
        w'.trace = w.trace ++ e ∧ isTransfer p b e = true) ∧
      b = ((L &&& 0x0F) <<< 4) ||| (6 <<< 1) ||| 0x01 ∧
      (b >>> 1) &&& 0x7 = 6 ∧ b &&& 0x01 = 1) ∧
    (∃ b,
      (∃ w' e, setSN76489voice3_attn env (fuel + 1) p L w = Run.done w' ∧
        w'.trace = w.trace ++ e ∧ isTransfer p b e = true) ∧
      (∃ w' e, setSN76489voice3_attn env (fuel + 1) p (L &&& 0x0F) w = Run.done w' ∧
        w'.trace = w.trace ++ e ∧ isTransfer p b e = true) ∧
      b = ((L &&& 0x0F) <<< 4) ||| (5 <<< 1) ||| 0x01 ∧
      (b >>> 1) &&& 0x7 = 5 ∧ b &&& 0x01 = 1) ∧
    (∃ b,
      (∃ w' e, setSN76489noise_attn env (fuel + 1) p L w = Run.done w' ∧
        w'.trace = w.trace ++ e ∧ isTransfer p b e = true) ∧
      (∃ w' e, setSN76489noise_attn env (fuel + 1) p (L &&& 0x0F) w = Run.done w' ∧
        w'.trace = w.trace ++ e ∧ isTransfer p b e = true) ∧
      b = ((L &&& 0x0F) <<< 4) ||| (7 <<< 1) ||| 0x01 ∧
      (b >>> 1) &&& 0x7 = 7 ∧ b &&& 0x01 = 1) :=
  ⟨attn_truncated env p fuel L VOICE1_ATTN w hready hL (by decide),
   attn_truncated env p fuel L VOICE2_ATTN w hready hL (by decide),
   attn_truncated env p fuel L VOICE3_ATTN w hready hL (by decide),
   attn_truncated env p fuel L NOISE_ATTN w hready hL (by decide)⟩

/-- Witness of C19: the example handle, ready always high, attenuation `0xAB`
on voice 1 (the byte is that of `0x0B`). -/
theorem setSN76489_attn_truncated_witness :
    ReadyHigh readyAlways demoHandle ∧ 0xAB < 256 ∧
    ∃ b,
      (∃ w' e, setSN76489voice1_attn readyAlways (0 + 1) demoHandle 0xAB idleWorld =
          Run.done w' ∧
        w'.trace = idleWorld.trace ++ e ∧ isTransfer demoHandle b e = true) ∧
      (∃ w' e, setSN76489voice1_attn readyAlways (0 + 1) demoHandle (0xAB &&& 0x0F) idleWorld =
          Run.done w' ∧
        w'.trace = idleWorld.trace ++ e ∧ isTransfer demoHandle b e = true) ∧
      b = ((0xAB &&& 0x0F) <<< 4) ||| (4 <<< 1) ||| 0x01 ∧
      (b >>> 1) &&& 0x7 = 4 ∧ b &&& 0x01 = 1 :=
  ⟨readyAlways_high demoHandle (by decide), by decide,
    (setSN76489_attn_truncated readyAlways demoHandle 0 0xAB idleWorld
      (readyAlways_high demoHandle (by decide)) (by decide)).1⟩

end SN76489
